import Mathlib

/-!
# Shallow embedding of the shapelib DBF table engine (src/dbfopen.c)

This file models the DBF attribute-table engine of shapelib at the logical
level: a table handle is the schema (field offsets, sizes, decimals, types)
together with the logical content of the record store (the merge of the
on-disk records and the one-record write-back cache).  Machine integers of
the C code are modelled by `Nat`/`Int`; C strings by NUL-free `List Char`;
C `double` values flowing through the numeric value codec are carried
opaquely (the printf-style formatter and the hook-supplied `Atof` are
collaborator functions, taken as parameters).  A separate, more operational
model (`DBFCacheState`) captures the record cache, the stream position and
the emitted I/O calls for the seek-elision contract, and a byte-level parse
model captures `DBFOpenLL`'s header validation.
-/

namespace Shapelib

/-- `XBASE_FILEHDR_SZ` of dbfopen.c: size of the 32-byte file header. -/
def XBASE_FILEHDR_SZ : Nat := 32

/-- `XBASE_FLDHDR_SZ`: size of one 32-byte field descriptor. -/
def XBASE_FLDHDR_SZ : Nat := 32

/-- `XBASE_FLD_MAX_WIDTH`: maximum field width (255). -/
def XBASE_FLD_MAX_WIDTH : Nat := 255

/-- `HEADER_RECORD_TERMINATOR` (0x0D). -/
def HEADER_RECORD_TERMINATOR : Nat := 0x0D

/-! ## C byte-buffer and C-string primitives -/

/-- Overwrite `bytes.length` bytes of `rec` starting at `off` (C `memcpy`
into a buffer).  Bytes outside the written range are untouched. -/
def setBytes (rec : List Char) (off : Nat) (bytes : List Char) : List Char :=
  rec.take off ++ bytes ++ rec.drop (off + bytes.length)

/-- The `size` bytes of a field starting at byte `off` of a record. -/
def fieldBytes (rec : List Char) (off size : Nat) : List Char :=
  (rec.drop off).take size

/-- The C string held in a buffer: the bytes up to the first NUL. -/
def cstr (l : List Char) : List Char :=
  l.takeWhile (fun c => c ≠ '\x00')

/-- Byte `i` of the NUL-terminated buffer holding the C string `v`:
past the end of `v` the terminator is read. -/
def cstrByte (v : List Char) (i : Nat) : Char :=
  v.getD i '\x00'

/-- C `strncmp` on NUL-free character lists (list end plays the role of the
terminator). -/
def strncmp : List Char → List Char → Nat → Int
  | _, _, 0 => 0
  | [], [], _ + 1 => 0
  | [], b :: _, _ + 1 => 0 - (b.toNat : Int)
  | a :: _, [], _ + 1 => (a.toNat : Int)
  | a :: as, b :: bs, n + 1 =>
    if a = b then strncmp as bs n else (a.toNat : Int) - (b.toNat : Int)

/-- C `strcmp` on NUL-free character lists. -/
def strcmp : List Char → List Char → Int
  | [], [] => 0
  | [], b :: _ => 0 - (b.toNat : Int)
  | a :: _, [] => (a.toNat : Int)
  | a :: as, b :: bs =>
    if a = b then strcmp as bs else (a.toNat : Int) - (b.toNat : Int)

/-- The in-place whitespace strip applied to string reads when the
`TRIM_DBF_WHITESPACE` build toggle is on: leading and trailing spaces of
the C string are removed. -/
def trimSpaces (v : List Char) : List Char :=
  ((v.dropWhile (fun c => c = ' ')).reverse.dropWhile (fun c => c = ' ')).reverse

/-! ## Value codec -/

/-- `DBFGetNullCharacter`: the per-type NULL sentinel fill byte. -/
def DBFGetNullCharacter (chType : Char) : Char :=
  if chType = 'N' ∨ chType = 'F' then '*'
  else if chType = 'D' then '0'
  else if chType = 'L' then '?'
  else ' '

/-- `DBFIsValueNULL` of dbfopen.c.  `v` is the C string held in the work
buffer (already trimmed by the string read when trimming is enabled),
`size` the field width; the `D` loop reads the buffer bytes through the
terminator, which `cstrByte` reproduces. -/
def DBFIsValueNULL (chType : Char) (v : List Char) (size : Nat) : Bool :=
  if chType = 'N' ∨ chType = 'F' then
    if cstrByte v 0 = '*' then true else v.all (fun c => c = ' ')
  else if chType = 'D' then
    if v = [] ∨ strncmp v ['0', '0', '0', '0', '0', '0', '0', '0'] 8 = 0 ∨
        strcmp v [' '] = 0 ∨ strcmp v ['0'] = 0 then true
    else (List.range size).all (fun i => cstrByte v i = '0')
  else if chType = 'L' then cstrByte v 0 = '?'
  else v.length = 0

/-- Decimal digits of a natural number, most significant first (the digit
stream produced by the C library for an integral value). -/
def natDigits (n : Nat) : List Char :=
  if h : n < 10 then [Nat.digitChar n]
  else
    have : n / 10 < n := Nat.div_lt_self (by omega) (by omega)
    natDigits (n / 10) ++ [Nat.digitChar (n % 10)]

/-- Decimal rendering of an integer, `-` sign first. -/
def intDigits (n : Int) : List Char :=
  if n < 0 then '-' :: natDigits n.natAbs else natDigits n.natAbs

/-- Modelled from the C library collaborator: `snprintf` with format
`"%*.*f"` applied to a C double holding the exact integer `n` (the only
doubles our logical record model stores).  The rendering is the sign and
digits, followed by `.` and `dec` zero decimals when `dec > 0`, right
justified with spaces to width `w` (printf never truncates `%f` output). -/
def snprintfFModel (w dec : Nat) (n : Int) : List Char :=
  let core := intDigits n ++ (if dec = 0 then [] else '.' :: List.replicate dec '0')
  List.replicate (w - core.length) ' ' ++ core

/-- Modelled from the C library collaborator: `"%04d"` of `0 ≤ y ≤ 9999`. -/
def fmt4 (y : Nat) : List Char :=
  [Nat.digitChar (y / 1000 % 10), Nat.digitChar (y / 100 % 10),
   Nat.digitChar (y / 10 % 10), Nat.digitChar (y % 10)]

/-- Modelled from the C library collaborator: `"%02d"` of `0 ≤ m ≤ 99`. -/
def fmt2 (m : Nat) : List Char :=
  [Nat.digitChar (m / 10 % 10), Nat.digitChar (m % 10)]

/-- The `"%04d%02d%02d"` date rendering of `DBFWriteDateAttribute`. -/
def fmtDate (y m d : Nat) : List Char :=
  fmt4 y ++ fmt2 m ++ fmt2 d

/-- Value of a digit list read left to right. -/
def digitsVal (l : List Char) : Int :=
  l.foldl (fun a c => a * 10 + ((c.toNat - 48 : Nat) : Int)) 0

/-- C `atoi` on a NUL-free character list: skip `isspace` bytes, optional
sign, then greedy digits. -/
def atoiC (s : List Char) : Int :=
  let s1 := s.dropWhile (fun c =>
    c = ' ' ∨ c = '\t' ∨ c = '\n' ∨ c = '\x0b' ∨ c = '\x0c' ∨ c = '\r')
  match s1 with
  | '-' :: rest => 0 - digitsVal (rest.takeWhile Char.isDigit)
  | '+' :: rest => digitsVal (rest.takeWhile Char.isDigit)
  | _ => digitsVal (s1.takeWhile Char.isDigit)

/-! ## The table handle -/

/-- The logical state of a `DBFInfo` handle: the schema arrays of the C
struct plus the logical record store (on-disk records merged with the
one-record cache; the engine keeps them coherent through
`DBFFlushRecord`/`DBFLoadRecord`, so a single record list is the faithful
logical view). -/
structure DBFInfo where
  nRecords : Nat
  nRecordLength : Nat
  nHeaderLength : Nat
  nFields : Nat
  panFieldOffset : List Nat
  panFieldSize : List Nat
  panFieldDecimals : List Nat
  pachFieldType : List Char
  records : List (List Char)
  deriving Repr, DecidableEq

/-- Prefix-sum field offsets: `offsetsFrom b [w0, w1, ...] = [b, b+w0, ...]`.
This is the recurrence `offset[0] = base`, `offset[i] = offset[i-1] +
width[i-1]` that dbfopen.c computes on open, add and reorder. -/
def offsetsFrom (base : Nat) : List Nat → List Nat
  | [] => []
  | w :: ws => base :: offsetsFrom (base + w) ws

/-- Schema/record well-formedness of a handle, as maintained by the engine
(§3 of the spec, and established by `DBFOpenLL`/`DBFCreate`). -/
structure DBFWF (d : DBFInfo) : Prop where
  len_off : d.panFieldOffset.length = d.nFields
  len_size : d.panFieldSize.length = d.nFields
  len_dec : d.panFieldDecimals.length = d.nFields
  len_type : d.pachFieldType.length = d.nFields
  len_records : d.records.length = d.nRecords
  rec_len : ∀ r ∈ d.records, r.length = d.nRecordLength
  offsets_eq : d.panFieldOffset = offsetsFrom 1 d.panFieldSize
  recLen_eq : d.nRecordLength = 1 + d.panFieldSize.sum
  sizes_pos : ∀ w ∈ d.panFieldSize, 1 ≤ w

/-- The invariant bundle that claim C3 asserts of a mutated schema (§3 of
the spec): well-formedness, unchanged record count, the offset recurrence
`offset[0] = 1`, `offset[i] = offset[i-1] + width[i-1]`, and
`record_length = 1 + sum of widths`. -/
def schemaOK (dOld dNew : DBFInfo) : Prop :=
  DBFWF dNew ∧ dNew.nRecords = dOld.nRecords ∧
  (0 < dNew.nFields → dNew.panFieldOffset.getD 0 0 = 1) ∧
  (∀ k, k + 1 < dNew.nFields →
    dNew.panFieldOffset.getD (k + 1) 0 =
      dNew.panFieldOffset.getD k 0 + dNew.panFieldSize.getD k 0) ∧
  dNew.nRecordLength = 1 + dNew.panFieldSize.sum

/-! ## Typed attribute writes -/

/-- The value handed to `DBFWriteAttribute` through its `void *` argument.
A C double is carried as the exact integer it holds (`dbl`); the formatter
and `Atof` collaborators that touch it are parameters of the operations. -/
inductive DBFValue where
  | null
  | dbl (v : Int)
  | logical (c : Char)
  | str (s : List Char)
  deriving Repr, DecidableEq

/-- The double carried by a value (a type-mismatched write reinterprets
memory in C; the model returns 0 in that unspecified case). -/
def DBFValue.asDbl : DBFValue → Int
  | .dbl v => v
  | _ => 0

/-- The C string carried by a value (0 in the unspecified mismatch case). -/
def DBFValue.asStr : DBFValue → List Char
  | .str s => s
  | _ => []

/-- The char carried by a value (`*(char *)pValue` of the `'L'` branch). -/
def DBFValue.asLogical : DBFValue → Char
  | .logical c => c
  | _ => '\x00'

/-- The append step shared by `DBFWriteAttribute`, `DBFWriteAttributeDirectly`
and `DBFWriteTuple`: a write to index `nRecords` grows the table by one
all-space record (deletion flag `' '`). -/
def appendBlankIfNew (d : DBFInfo) (hEntity : Int) : DBFInfo :=
  if hEntity = (d.nRecords : Int) then
    { d with
      nRecords := d.nRecords + 1
      records := d.records ++ [List.replicate d.nRecordLength ' '] }
  else d

/-- Replace record `i` by `f` applied to it. -/
def updateRecord (d : DBFInfo) (i : Nat) (f : List Char → List Char) : DBFInfo :=
  { d with records := d.records.set i (f (d.records.getD i [])) }

/-- `DBFWriteAttribute` of dbfopen.c.  `fmtF w dec v` is the
`CPLsnprintf(szSField, sizeof(szSField), "%w.decf", value)` collaborator
(its output is cut to the 255 content bytes of `szSField`), `atofF` the
hook-supplied locale-independent `Atof`.  Returns the C result together
with the new handle state. -/
def DBFWriteAttribute (fmtF : Nat → Nat → Int → List Char)
    (atofF : List Char → Int) (psDBF : DBFInfo) (hEntity : Int) (iField : Nat)
    (pValue : DBFValue) : Bool × DBFInfo :=
  if hEntity < 0 ∨ (psDBF.nRecords : Int) < hEntity then (false, psDBF)
  else
    let d := appendBlankIfNew psDBF hEntity
    let off := d.panFieldOffset.getD iField 0
    let size := d.panFieldSize.getD iField 0
    let ty := d.pachFieldType.getD iField ' '
    match pValue with
    | .null =>
      (true, updateRecord d hEntity.toNat (fun r =>
        setBytes r off (List.replicate size (DBFGetNullCharacter ty))))
    | v =>
      if ty = 'D' ∨ ty = 'N' ∨ ty = 'F' then
        let value := v.asDbl
        let nWidth := if XBASE_FLD_MAX_WIDTH + 1 - 2 < size
          then XBASE_FLD_MAX_WIDTH + 1 - 2 else size
        let szSField := (fmtF nWidth (d.panFieldDecimals.getD iField 0) value).take
          XBASE_FLD_MAX_WIDTH
        if size < szSField.length then
          (decide (atofF (szSField.take size) = value),
           updateRecord d hEntity.toNat (fun r =>
             setBytes r off (szSField.take size)))
        else
          (true, updateRecord d hEntity.toNat (fun r => setBytes r off szSField))
      else if ty = 'L' then
        if 1 ≤ size ∧ (v.asLogical = 'F' ∨ v.asLogical = 'T') then
          (true, updateRecord d hEntity.toNat (fun r =>
            setBytes r off [v.asLogical]))
        else (false, d)
      else
        let s := v.asStr
        if size < s.length then
          (false, updateRecord d hEntity.toNat (fun r =>
            setBytes r off (s.take size)))
        else
          (true, updateRecord d hEntity.toNat (fun r =>
            setBytes (setBytes r off (List.replicate size ' ')) off s))

/-- `DBFWriteNULLAttribute`. -/
def DBFWriteNULLAttribute (fmtF : Nat → Nat → Int → List Char)
    (atofF : List Char → Int) (psDBF : DBFInfo) (iRecord : Int)
    (iField : Nat) : Bool × DBFInfo :=
  DBFWriteAttribute fmtF atofF psDBF iRecord iField .null

/-- `DBFWriteIntegerAttribute` (the int is widened to a double, exactly). -/
def DBFWriteIntegerAttribute (fmtF : Nat → Nat → Int → List Char)
    (atofF : List Char → Int) (psDBF : DBFInfo) (iRecord : Int)
    (iField : Nat) (nValue : Int) : Bool × DBFInfo :=
  DBFWriteAttribute fmtF atofF psDBF iRecord iField (.dbl nValue)

/-- `DBFWriteLogicalAttribute`. -/
def DBFWriteLogicalAttribute (fmtF : Nat → Nat → Int → List Char)
    (atofF : List Char → Int) (psDBF : DBFInfo) (iRecord : Int)
    (iField : Nat) (lValue : Char) : Bool × DBFInfo :=
  DBFWriteAttribute fmtF atofF psDBF iRecord iField (.logical lValue)

/-- `DBFWriteStringAttribute`. -/
def DBFWriteStringAttribute (fmtF : Nat → Nat → Int → List Char)
    (atofF : List Char → Int) (psDBF : DBFInfo) (iRecord : Int)
    (iField : Nat) (pszValue : List Char) : Bool × DBFInfo :=
  DBFWriteAttribute fmtF atofF psDBF iRecord iField (.str pszValue)

/-- `DBFWriteAttributeDirectly`: writes the raw buffer at the field
position, space-filling the field first when the value fits. -/
def DBFWriteAttributeDirectly (psDBF : DBFInfo) (hEntity : Int)
    (iField : Int) (pValue : List Char) : Bool × DBFInfo :=
  if hEntity < 0 ∨ (psDBF.nRecords : Int) < hEntity then (false, psDBF)
  else
    let d := appendBlankIfNew psDBF hEntity
    if 0 ≤ iField then
      let off := d.panFieldOffset.getD iField.toNat 0
      let size := d.panFieldSize.getD iField.toNat 0
      if size < pValue.length then
        (true, updateRecord d hEntity.toNat (fun r =>
          setBytes r off (pValue.take size)))
      else
        (true, updateRecord d hEntity.toNat (fun r =>
          setBytes (setBytes r off (List.replicate size ' ')) off pValue))
    else (true, d)

/-- `DBFWriteDateAttribute`: digit-range validation, then the
`"%04d%02d%02d"` rendering written through `DBFWriteAttributeDirectly`. -/
def DBFWriteDateAttribute (psDBF : DBFInfo) (iRecord : Int) (iField : Int)
    (year month day : Int) : Bool × DBFInfo :=
  if year < 0 ∨ 9999 < year then (false, psDBF)
  else if month < 0 ∨ 99 < month then (false, psDBF)
  else if day < 0 ∨ 99 < day then (false, psDBF)
  else DBFWriteAttributeDirectly psDBF iRecord iField
    (fmtDate year.toNat month.toNat day.toNat)

/-- `DBFWriteTuple`: `memcpy` of the raw tuple over the whole record. -/
def DBFWriteTuple (psDBF : DBFInfo) (hEntity : Int)
    (pRawTuple : List Char) : Bool × DBFInfo :=
  if hEntity < 0 ∨ (psDBF.nRecords : Int) < hEntity then (false, psDBF)
  else
    let d := appendBlankIfNew psDBF hEntity
    (true, updateRecord d hEntity.toNat (fun r =>
      setBytes r 0 (pRawTuple.take d.nRecordLength)))

/-! ## Attribute reads -/

/-- The range checks plus raw field extraction of `DBFReadAttribute`:
the field bytes are copied to the work buffer and NUL-terminated. -/
def DBFReadAttributeRaw (psDBF : DBFInfo) (hEntity iField : Int) :
    Option (List Char) :=
  if hEntity < 0 ∨ (psDBF.nRecords : Int) ≤ hEntity then none
  else if iField < 0 ∨ (psDBF.nFields : Int) ≤ iField then none
  else
    let r := psDBF.records.getD hEntity.toNat []
    some (cstr (fieldBytes r (psDBF.panFieldOffset.getD iField.toNat 0)
      (psDBF.panFieldSize.getD iField.toNat 0)))

/-- `DBFReadStringAttribute` (`chReqType = 'C'`).  `trim` is the
`TRIM_DBF_WHITESPACE` build toggle. -/
def DBFReadStringAttribute (trim : Bool) (psDBF : DBFInfo)
    (hEntity iField : Int) : Option (List Char) :=
  (DBFReadAttributeRaw psDBF hEntity iField).map
    (fun v => if trim then trimSpaces v else v)

/-- `DBFReadIntegerAttribute`: `atoi` of the work field, `0` when
`DBFReadAttribute` returned no value. -/
def DBFReadIntegerAttribute (psDBF : DBFInfo) (iRecord iField : Int) : Int :=
  match DBFReadAttributeRaw psDBF iRecord iField with
  | none => 0
  | some v => atoiC v

/-- `DBFReadDoubleAttribute`: the hook `Atof` (modelled over `ℚ`) of the
work field, `0.0` when `DBFReadAttribute` returned no value. -/
def DBFReadDoubleAttribute (atofF : List Char → ℚ) (psDBF : DBFInfo)
    (iRecord iField : Int) : ℚ :=
  match DBFReadAttributeRaw psDBF iRecord iField with
  | none => 0
  | some v => atofF v

/-- `DBFIsAttributeNULL`: a string read, then `DBFIsValueNULL` against the
field's native type and width (an out-of-range read yields a NULL work
field and so reports TRUE). -/
def DBFIsAttributeNULL (trim : Bool) (psDBF : DBFInfo)
    (iRecord iField : Int) : Bool :=
  match DBFReadStringAttribute trim psDBF iRecord iField with
  | none => true
  | some v => DBFIsValueNULL (psDBF.pachFieldType.getD iField.toNat ' ') v
      (psDBF.panFieldSize.getD iField.toNat 0)

/-- `DBFIsRecordDeleted`: out-of-range records report TRUE, in-range
records report whether their first byte is `'*'`. -/
def DBFIsRecordDeleted (psDBF : DBFInfo) (iShape : Int) : Bool :=
  if iShape < 0 ∨ (psDBF.nRecords : Int) ≤ iShape then true
  else (psDBF.records.getD iShape.toNat []).getD 0 ' ' = '*'

/-! ## Schema mutation -/

/-- `DBFAddNativeFieldType`: limit checks, width clamp, schema append, and
the back-to-front record rewrite that fills the new field of every existing
record with its type's NULL sentinel.  Returns the C result (`-1` on
failure, the new zero-based field index on success) with the new state. -/
def DBFAddNativeFieldType (psDBF : DBFInfo) (chType : Char) (nWidth : Int)
    (nDecimals : Nat) : Int × DBFInfo :=
  if 65535 < psDBF.nHeaderLength + XBASE_FLDHDR_SZ then (-1, psDBF)
  else if nWidth < 1 then (-1, psDBF)
  else
    let w := if (XBASE_FLD_MAX_WIDTH : Int) < nWidth then XBASE_FLD_MAX_WIDTH
      else nWidth.toNat
    if 65535 < psDBF.nRecordLength + w then (-1, psDBF)
    else
      let chFieldFill := DBFGetNullCharacter chType
      ((psDBF.nFields : Int),
       { psDBF with
         nFields := psDBF.nFields + 1
         panFieldOffset := psDBF.panFieldOffset ++ [psDBF.nRecordLength]
         panFieldSize := psDBF.panFieldSize ++ [w]
         panFieldDecimals := psDBF.panFieldDecimals ++ [nDecimals]
         pachFieldType := psDBF.pachFieldType ++ [chType]
         nRecordLength := psDBF.nRecordLength + w
         nHeaderLength := psDBF.nHeaderLength + XBASE_FLDHDR_SZ
         records := psDBF.records.map (fun r => r ++ List.replicate w chFieldFill) })

/-- `DBFDeleteField`: drops descriptor `iField`, shifts the later offsets
down by the deleted width, and rewrites each record as its prefix before
the field followed by its suffix after it. -/
def DBFDeleteField (psDBF : DBFInfo) (iField : Int) : Bool × DBFInfo :=
  if iField < 0 ∨ (psDBF.nFields : Int) ≤ iField then (false, psDBF)
  else
    let i := iField.toNat
    let nDeletedFieldOffset := psDBF.panFieldOffset.getD i 0
    let nDeletedFieldSize := psDBF.panFieldSize.getD i 0
    (true,
     { psDBF with
       nFields := psDBF.nFields - 1
       panFieldOffset := psDBF.panFieldOffset.take i ++
         (psDBF.panFieldOffset.drop (i + 1)).map (fun o => o - nDeletedFieldSize)
       panFieldSize := psDBF.panFieldSize.take i ++ psDBF.panFieldSize.drop (i + 1)
       panFieldDecimals := psDBF.panFieldDecimals.take i ++
         psDBF.panFieldDecimals.drop (i + 1)
       pachFieldType := psDBF.pachFieldType.take i ++ psDBF.pachFieldType.drop (i + 1)
       nHeaderLength := psDBF.nHeaderLength - XBASE_FLDHDR_SZ
       nRecordLength := psDBF.nRecordLength - nDeletedFieldSize
       records := psDBF.records.map (fun r =>
         r.take nDeletedFieldOffset ++ r.drop (nDeletedFieldOffset + nDeletedFieldSize)) })

/-- `DBFReorderFields`: permutes the schema by `panMap`, recomputes the
offsets by the `offset[0] = 1, offset[i] = offset[i-1] + width[i-1]` loop,
and reassembles each record in the new field order (deletion flag kept). -/
def DBFReorderFields (psDBF : DBFInfo) (panMap : List Nat) : Bool × DBFInfo :=
  if psDBF.nFields = 0 then (true, psDBF)
  else
    let panFieldSizeNew := panMap.map (fun j => psDBF.panFieldSize.getD j 0)
    let panFieldDecimalsNew := panMap.map (fun j => psDBF.panFieldDecimals.getD j 0)
    let pachFieldTypeNew := panMap.map (fun j => psDBF.pachFieldType.getD j ' ')
    let panFieldOffsetNew := offsetsFrom 1 panFieldSizeNew
    (true,
     { psDBF with
       panFieldOffset := panFieldOffsetNew
       panFieldSize := panFieldSizeNew
       panFieldDecimals := panFieldDecimalsNew
       pachFieldType := pachFieldTypeNew
       records := psDBF.records.map (fun r =>
         r.getD 0 ' ' :: (panMap.map (fun j =>
           fieldBytes r (psDBF.panFieldOffset.getD j 0)
             (psDBF.panFieldSize.getD j 0))).flatten) })

/-- The per-record rewrite of `DBFAlterFieldDefn` when the width shrinks or
only the type changes: numeric/date fields whose first byte is a space are
truncated from the left, others from the right, and NULL values are
re-emitted as the destination type's sentinel. -/
def alterRecordShrink (chOldType chFieldFill : Char) (nOffset nOldWidth w : Nat)
    (r : List Char) : List Char :=
  let pszOldField := fieldBytes r nOffset nOldWidth
  let bIsNULL := DBFIsValueNULL chOldType (cstr pszOldField) nOldWidth
  let moved :=
    if w ≠ nOldWidth then
      if (chOldType = 'N' ∨ chOldType = 'F' ∨ chOldType = 'D') ∧
          pszOldField.getD 0 '\x00' = ' ' then
        pszOldField.drop (nOldWidth - w)
      else pszOldField.take w
    else pszOldField
  let newField := if bIsNULL then List.replicate w chFieldFill else moved
  r.take nOffset ++ newField ++ r.drop (nOffset + nOldWidth)

/-- The per-record rewrite of `DBFAlterFieldDefn` when the width grows:
numeric/float fields are padded with leading spaces, others with trailing
spaces, and NULL values are re-emitted as the destination sentinel. -/
def alterRecordGrow (chOldType chFieldFill : Char) (nOffset nOldWidth w : Nat)
    (r : List Char) : List Char :=
  let pszOldField := fieldBytes r nOffset nOldWidth
  let bIsNULL := DBFIsValueNULL chOldType (cstr pszOldField) nOldWidth
  let newField :=
    if bIsNULL then List.replicate w chFieldFill
    else if chOldType = 'N' ∨ chOldType = 'F' then
      List.replicate (w - nOldWidth) ' ' ++ pszOldField
    else pszOldField ++ List.replicate (w - nOldWidth) ' '
  r.take nOffset ++ newField ++ r.drop (nOffset + nOldWidth)

/-- `DBFAlterFieldDefn`: changes type/width/decimals of field `iField`,
shifts the later offsets, and rewrites the records per the three cases
(shrink or retype, unchanged, grow).  Returns the C int result: `0`
(FALSE) for a bad field index, `-1` for width < 1, `1` (TRUE) on success. -/
def DBFAlterFieldDefn (psDBF : DBFInfo) (iField : Int) (chType : Char)
    (nWidth : Int) (nDecimals : Nat) : Int × DBFInfo :=
  if iField < 0 ∨ (psDBF.nFields : Int) ≤ iField then (0, psDBF)
  else
    let i := iField.toNat
    let chFieldFill := DBFGetNullCharacter chType
    let chOldType := psDBF.pachFieldType.getD i ' '
    let nOffset := psDBF.panFieldOffset.getD i 0
    let nOldWidth := psDBF.panFieldSize.getD i 0
    if nWidth < 1 then (-1, psDBF)
    else
      let w := if (XBASE_FLD_MAX_WIDTH : Int) < nWidth then XBASE_FLD_MAX_WIDTH
        else nWidth.toNat
      let d1 : DBFInfo :=
        { psDBF with
          panFieldSize := psDBF.panFieldSize.set i w
          panFieldDecimals := psDBF.panFieldDecimals.set i nDecimals
          pachFieldType := psDBF.pachFieldType.set i chType
          panFieldOffset := psDBF.panFieldOffset.take (i + 1) ++
            (psDBF.panFieldOffset.drop (i + 1)).map (fun o => o + w - nOldWidth)
          nRecordLength := psDBF.nRecordLength + w - nOldWidth }
      if w < nOldWidth ∨ (w = nOldWidth ∧ chType ≠ chOldType) then
        (1, { d1 with records :=
          d1.records.map (alterRecordShrink chOldType chFieldFill nOffset nOldWidth w) })
      else if nOldWidth < w then
        (1, { d1 with records :=
          d1.records.map (alterRecordGrow chOldType chFieldFill nOffset nOldWidth w) })
      else (1, d1)

/-! ## Open: byte-level header parsing (`DBFOpenLL`) -/

/-- What `DBFOpenLL` computes from the file bytes (the schema part of the
handle; records are only read on demand). -/
structure DBFOpenInfo where
  nRecords : Nat
  nHeaderLength : Nat
  nRecordLength : Nat
  iLanguageDriver : Nat
  nFields : Nat
  panFieldOffset : List Nat
  panFieldSize : List Nat
  panFieldDecimals : List Nat
  pachFieldType : List Char
  deriving Repr, DecidableEq

/-- The field-descriptor loop of `DBFOpenLL`: reads up to `n` descriptors
of 32 bytes from the descriptor region `buf`, stopping early when a
descriptor starts with the header terminator `0x0D`.  Yields
(type, width, decimals) triples; for `N`/`F` byte 17 is decimals, for all
other types decimals read as 0. -/
def readFieldDescs (buf : List Nat) : Nat → Nat → List (Char × Nat × Nat)
  | 0, _ => []
  | n + 1, iField =>
    let base := iField * XBASE_FLDHDR_SZ
    if buf.getD base 0 = HEADER_RECORD_TERMINATOR then []
    else
      let ty := Char.ofNat (buf.getD (base + 11) 0)
      let size := buf.getD (base + 16) 0
      let dec := if ty = 'N' ∨ ty = 'F' then buf.getD (base + 17) 0 else 0
      (ty, size, dec) :: readFieldDescs buf n (iField + 1)

/-- `DBFOpenLL`, modelled as a pure parse of the file bytes: the open path
only reads (access modes are `rb`/`rb+`), so a failed open leaves the file
untouched by construction.  Returns no handle when the 32-byte header
cannot be read, when `record_length = 0` or `header_length < 32`, when the
descriptor region cannot be read (a zero-byte `FRead` returns 0 ≠ 1), or
when the total field width exceeds the record width. -/
def DBFOpenLL (file : List Nat) : Option DBFOpenInfo :=
  if file.length < XBASE_FILEHDR_SZ then none
  else
    let nRecords := file.getD 4 0 + 256 * file.getD 5 0 +
      65536 * file.getD 6 0 + 16777216 * (file.getD 7 0 % 128)
    let nHeadLen := file.getD 8 0 + 256 * file.getD 9 0
    let nRecLen := file.getD 10 0 + 256 * file.getD 11 0
    if nRecLen = 0 ∨ nHeadLen < XBASE_FILEHDR_SZ then none
    else
      let nFields := (nHeadLen - XBASE_FILEHDR_SZ) / XBASE_FLDHDR_SZ
      if nHeadLen - XBASE_FILEHDR_SZ = 0 ∨ file.length < nHeadLen then none
      else
        let buf := (file.drop XBASE_FILEHDR_SZ).take (nHeadLen - XBASE_FILEHDR_SZ)
        let descs := readFieldDescs buf nFields 0
        let sizes := descs.map (fun t => t.2.1)
        let offsets := offsetsFrom 1 sizes
        let n := descs.length
        if 0 < n ∧ nRecLen < offsets.getD (n - 1) 0 + sizes.getD (n - 1) 0 then none
        else some
          { nRecords := nRecords
            nHeaderLength := nHeadLen
            nRecordLength := nRecLen
            iLanguageDriver := file.getD 29 0
            nFields := n
            panFieldOffset := offsets
            panFieldSize := sizes
            panFieldDecimals := descs.map (fun t => t.2.2)
            pachFieldType := descs.map (fun t => t.1) }

/-! ## Record cache and seek elision (`DBFFlushRecord` / `DBFLoadRecord`) -/

/-- One call into the I/O hooks, as observed by the byte stream. -/
inductive IOEvent where
  | seekTo (pos : Nat)
  | wrote (n : Nat)
  | readN (n : Nat)
  deriving Repr, DecidableEq

/-- The cache-relevant state of a handle: the identity and dirtiness of the
cached record, the `bRequireNextWriteSeek` flag, the EOF-byte policy and
the stream position (`FTell`). -/
structure DBFCacheState where
  nRecords : Nat
  nRecordLength : Nat
  nHeaderLength : Nat
  nCurrentRecord : Int
  bCurrentRecordModified : Bool
  bRequireNextWriteSeek : Bool
  bWriteEndOfFileChar : Bool
  filePos : Nat
  deriving Repr, DecidableEq

/-- The file offset of record `i`: `header_length + i * record_length`. -/
def recordOffsetOf (s : DBFCacheState) (i : Int) : Nat :=
  s.nRecordLength * i.toNat + s.nHeaderLength

/-- `DBFFlushRecord` (success path): writes back a dirty cached record,
seeking first unless the `bRequireNextWriteSeek` flag is clear and the
stream is already at the record's offset; clears both flags, and appends
the EOF byte after the last record when that policy is on.  Returns the
I/O calls made together with the new state. -/
def DBFFlushRecordM (s : DBFCacheState) : List IOEvent × DBFCacheState :=
  if s.bCurrentRecordModified ∧ -1 < s.nCurrentRecord then
    let nRecordOffset := recordOffsetOf s s.nCurrentRecord
    let seekNeeded := s.bRequireNextWriteSeek ∨ s.filePos ≠ nRecordOffset
    let evSeek := if seekNeeded then [IOEvent.seekTo nRecordOffset] else []
    let base : DBFCacheState :=
      { s with
        bCurrentRecordModified := false
        bRequireNextWriteSeek := false
        filePos := nRecordOffset + s.nRecordLength }
    if s.nCurrentRecord = (s.nRecords : Int) - 1 ∧ s.bWriteEndOfFileChar then
      (evSeek ++ [IOEvent.wrote s.nRecordLength, IOEvent.wrote 1],
       { base with filePos := base.filePos + 1 })
    else (evSeek ++ [IOEvent.wrote s.nRecordLength], base)
  else ([], s)

/-- `DBFLoadRecord` (success path): on a cache miss, flushes the dirty
record, seeks to the requested record, reads it, and sets
`bRequireNextWriteSeek` so the next flush will seek. -/
def DBFLoadRecordM (s : DBFCacheState) (iRecord : Int) :
    List IOEvent × DBFCacheState :=
  if s.nCurrentRecord ≠ iRecord then
    let p := DBFFlushRecordM s
    let nRecordOffset := recordOffsetOf p.2 iRecord
    (p.1 ++ [IOEvent.seekTo nRecordOffset, IOEvent.readN p.2.nRecordLength],
     { p.2 with
       filePos := nRecordOffset + p.2.nRecordLength
       nCurrentRecord := iRecord
       bRequireNextWriteSeek := true })
  else ([], s)

/-! ## Concrete sample tables -/

def sampleTable : DBFInfo :=
  { nRecords := 1
    nRecordLength := 12
    nHeaderLength := 98
    nFields := 2
    panFieldOffset := [1, 4]
    panFieldSize := [3, 8]
    panFieldDecimals := [0, 0]
    pachFieldType := ['N', 'D']
    records := [[' ', '1', '2', '3', '2', '0', '2', '4', '0', '3', '0', '7']] }

def sampleTableL : DBFInfo :=
  { nRecords := 1
    nRecordLength := 2
    nHeaderLength := 66
    nFields := 1
    panFieldOffset := [1]
    panFieldSize := [1]
    panFieldDecimals := [0]
    pachFieldType := ['L']
    records := [[' ', '?']] }

def tupleTable : DBFInfo :=
  { nRecords := 0
    nRecordLength := 2
    nHeaderLength := 65
    nFields := 1
    panFieldOffset := [1]
    panFieldSize := [1]
    panFieldDecimals := [0]
    pachFieldType := ['C']
    records := [] }

def flushSample : DBFCacheState :=
  { nRecords := 2
    nRecordLength := 3
    nHeaderLength := 97
    nCurrentRecord := 0
    bCurrentRecordModified := true
    bRequireNextWriteSeek := true
    bWriteEndOfFileChar := false
    filePos := 97 }

/-! ## Byte-surgery lemmas -/

theorem setBytes_length {rec bytes : List Char} {off : Nat}
    (h : off + bytes.length ≤ rec.length) :
    (setBytes rec off bytes).length = rec.length := by
  simp only [setBytes, List.length_append, List.length_take, List.length_drop]
  omega

theorem length_fieldBytes {rec : List Char} {off size : Nat}
    (h : off + size ≤ rec.length) : (fieldBytes rec off size).length = size := by
  simp only [fieldBytes, List.length_take, List.length_drop]
  omega

theorem drop_of_eq_len {α : Type} {l1 l2 : List α} {n : Nat}
    (h : l1.length = n) : List.drop n (l1 ++ l2) = l2 := by
  subst h
  exact List.drop_left l1 l2

theorem take_append_of_le_len {α : Type} {l1 l2 : List α} {n : Nat}
    (h : l1.length ≤ n) :
    List.take n (l1 ++ l2) = l1 ++ List.take (n - l1.length) l2 := by
  rw [show n = l1.length + (n - l1.length) by omega, List.take_append]
  congr 2
  omega

theorem fieldBytes_setBytes {rec bytes : List Char} {off size : Nat}
    (hsz : off + size ≤ rec.length) (hlen : bytes.length ≤ size) :
    fieldBytes (setBytes rec off bytes) off size =
      bytes ++ (fieldBytes rec off size).drop bytes.length := by
  have htk : (rec.take off).length = off := by
    simp only [List.length_take]; omega
  have h1 : setBytes rec off bytes =
      rec.take off ++ (bytes ++ rec.drop (off + bytes.length)) := by
    simp [setBytes]
  have h2 : fieldBytes (setBytes rec off bytes) off size =
      List.take size (bytes ++ rec.drop (off + bytes.length)) := by
    rw [fieldBytes, h1, drop_of_eq_len htk]
  rw [h2, take_append_of_le_len (by omega)]
  congr 1
  rw [fieldBytes, List.drop_take, List.drop_drop]

theorem setBytes_getD_zero {rec bytes : List Char} {off : Nat} (c : Char)
    (hoff : 1 ≤ off) (hrec : 1 ≤ rec.length) :
    (setBytes rec off bytes).getD 0 c = rec.getD 0 c := by
  rcases rec with _ | ⟨a, rec⟩
  · simp at hrec
  · rcases off with _ | off
    · omega
    · simp [setBytes, List.getD]

/-! ## C-string lemmas -/

theorem cstr_of_no_nul {l : List Char} (h : ∀ c ∈ l, c ≠ '\x00') :
    cstr l = l := by
  apply List.takeWhile_eq_self_iff.2
  intro x hx
  simpa using h x hx

theorem trimSpaces_eq_nil_iff {l : List Char} :
    trimSpaces l = [] ↔ ∀ c ∈ l, c = ' ' := by
  constructor
  · intro h c hc
    have h1 : ∀ x ∈ l.dropWhile (fun c => c = ' '), x = ' ' := by
      intro x hx
      have h2 : (l.dropWhile (fun c => c = ' ')).reverse.dropWhile
          (fun c => c = ' ') = [] := by
        simpa [trimSpaces] using h
      have h3 := List.dropWhile_eq_nil_iff.1 h2 x (by simpa using hx)
      simpa using h3
    have hsplit := List.takeWhile_append_dropWhile
      (p := fun c : Char => decide (c = ' ')) (l := l)
    rw [← hsplit] at hc
    rcases List.mem_append.1 hc with h2 | h2
    · simpa using List.mem_takeWhile_imp h2
    · exact h1 c h2
  · intro h
    have h1 : l.dropWhile (fun c => c = ' ') = [] :=
      List.dropWhile_eq_nil_iff.2 (by intro x hx; simpa using h x hx)
    simp [trimSpaces, h1]

theorem trimSpaces_of_no_space {l : List Char} (h : ∀ c ∈ l, c ≠ ' ') :
    trimSpaces l = l := by
  have h1 : l.dropWhile (fun c => c = ' ') = l := by
    rcases l with _ | ⟨a, l⟩
    · rfl
    · rw [List.dropWhile_cons_of_neg]
      simpa using h a (by simp)
  have h2 : l.reverse.dropWhile (fun c => c = ' ') = l.reverse := by
    rcases hr : l.reverse with _ | ⟨a, t⟩
    · rfl
    · rw [List.dropWhile_cons_of_neg]
      have : a ∈ l := by
        rw [← List.mem_reverse, hr]; simp
      simpa using h a this
  simp [trimSpaces, h1, h2]

theorem trimSpaces_sp_append {l : List Char} (k : Nat) (h : ∀ c ∈ l, c ≠ ' ') :
    trimSpaces (List.replicate k ' ' ++ l) = l := by
  have h1 : (List.replicate k ' ' ++ l).dropWhile (fun c => c = ' ') =
      l.dropWhile (fun c => c = ' ') := by
    induction k with
    | zero => simp
    | succ k ih => simp [List.replicate_succ, ih]
  have h2 : l.dropWhile (fun c => c = ' ') = l := by
    rcases l with _ | ⟨a, l⟩
    · rfl
    · rw [List.dropWhile_cons_of_neg]
      simpa using h a (by simp)
  have h3 : l.reverse.dropWhile (fun c => c = ' ') = l.reverse := by
    rcases hr : l.reverse with _ | ⟨a, t⟩
    · rfl
    · rw [List.dropWhile_cons_of_neg]
      have : a ∈ l := by
        rw [← List.mem_reverse, hr]; simp
      simpa using h a this
  simp [trimSpaces, h1, h2, h3]

theorem char_eq_of_toNat_sub_eq {a b : Char}
    (h : (a.toNat : Int) - (b.toNat : Int) = 0) : a = b := by
  apply Char.ext
  apply UInt32.toNat.inj
  show a.toNat = b.toNat
  omega

theorem char_toNat_ne_zero {c : Char} (h : c ≠ '\x00') : (c.toNat : Int) ≠ 0 := by
  intro h0
  apply h
  apply Char.ext
  apply UInt32.toNat.inj
  show c.toNat = ('\x00').toNat
  rw [show ('\x00').toNat = 0 from rfl]
  omega

theorem strncmp_eq_zero_iff {a b : List Char} (k : Nat)
    (ha : ∀ c ∈ a, c ≠ '\x00') (hb : ∀ c ∈ b, c ≠ '\x00') :
    strncmp a b k = 0 ↔ a.take k = b.take k := by
  induction k generalizing a b with
  | zero => simp [strncmp]
  | succ k ih =>
    match a, b with
    | [], [] => simp [strncmp]
    | [], c :: bs =>
      simp only [strncmp, List.take_nil, List.take_cons]
      constructor
      · intro h
        exact absurd (by omega) (char_toNat_ne_zero (hb c (by simp)))
      · intro h
        exact absurd h (by simp)
    | c :: as, [] =>
      simp only [strncmp, List.take_nil, List.take_cons]
      constructor
      · intro h
        exact absurd h (char_toNat_ne_zero (ha c (by simp)))
      · intro h
        exact absurd h (by simp)
    | x :: as, y :: bs =>
      simp only [strncmp, List.take_cons]
      by_cases hxy : x = y
      · subst hxy
        rw [if_pos rfl]
        rw [show List.take (k + 1) (x :: as) = x :: List.take k as from rfl,
            show List.take (k + 1) (x :: bs) = x :: List.take k bs from rfl]
        simp only [List.cons.injEq, true_and]
        exact ih (fun c hc => ha c (List.mem_cons_of_mem _ hc))
          (fun c hc => hb c (List.mem_cons_of_mem _ hc))
      · rw [if_neg hxy]
        constructor
        · intro h
          exact absurd (char_eq_of_toNat_sub_eq h) hxy
        · intro h
          exact absurd (List.cons_eq_cons.1 h).1 hxy

theorem strcmp_eq_zero_iff {a b : List Char}
    (ha : ∀ c ∈ a, c ≠ '\x00') (hb : ∀ c ∈ b, c ≠ '\x00') :
    strcmp a b = 0 ↔ a = b := by
  induction a generalizing b with
  | nil =>
    rcases b with _ | ⟨y, bs⟩
    · simp [strcmp]
    · simp only [strcmp]
      constructor
      · intro h
        exact absurd (by omega) (char_toNat_ne_zero (hb y (by simp)))
      · intro h
        exact absurd h (by simp)
  | cons x as ih =>
    rcases b with _ | ⟨y, bs⟩
    · simp only [strcmp]
      constructor
      · intro h
        exact absurd h (char_toNat_ne_zero (ha x (by simp)))
      · intro h
        exact absurd h (by simp)
    · simp only [strcmp]
      by_cases hxy : x = y
      · subst hxy
        rw [if_pos rfl]
        simp only [List.cons.injEq, true_and]
        exact ih (fun c hc => ha c (List.mem_cons_of_mem _ hc))
          (fun c hc => hb c (List.mem_cons_of_mem _ hc))
      · rw [if_neg hxy]
        constructor
        · intro h
          exact absurd (char_eq_of_toNat_sub_eq h) hxy
        · intro h
          exact absurd (List.cons_eq_cons.1 h).1 hxy

theorem getD_replicate {n i : Nat} {a d : Char} (h : i < n) :
    (List.replicate n a).getD i d = a := by
  simp [List.getD, List.getElem?_replicate, h]

/-! ## Digit lemmas -/

theorem digitChar_isDigit {m : Nat} (h : m < 10) :
    (Nat.digitChar m).isDigit = true := by
  interval_cases m <;> decide

theorem digitChar_eq_zero_iff {m : Nat} (h : m < 10) :
    Nat.digitChar m = '0' ↔ m = 0 := by
  interval_cases m <;> simp <;> decide

theorem natDigits_ne_nil (n : Nat) : natDigits n ≠ [] := by
  rw [natDigits]
  split <;> simp

theorem natDigits_all_digit (n : Nat) : ∀ c ∈ natDigits n, c.isDigit = true := by
  induction n using natDigits.induct with
  | case1 n h =>
    rw [natDigits, dif_pos h]
    intro c hc
    simp only [List.mem_singleton] at hc
    subst hc
    exact digitChar_isDigit h
  | case2 n h hlt ih =>
    rw [natDigits, dif_neg h]
    intro c hc
    rcases List.mem_append.1 hc with h1 | h1
    · exact ih c h1
    · simp only [List.mem_singleton] at h1
      subst h1
      exact digitChar_isDigit (Nat.mod_lt _ (by omega))

theorem isDigit_ne_space {c : Char} (h : c.isDigit = true) : c ≠ ' ' := by
  intro hc
  subst hc
  exact absurd h (by decide)

theorem isDigit_ne_star {c : Char} (h : c.isDigit = true) : c ≠ '*' := by
  intro hc
  subst hc
  exact absurd h (by decide)

theorem isDigit_ne_nul {c : Char} (h : c.isDigit = true) : c ≠ '\x00' := by
  intro hc
  subst hc
  exact absurd h (by decide)

/-- Every byte of the numeric core rendering (the sign, the digits, the
decimal point, the decimal zeros) of `snprintfFModel` is a sign, point or
digit. -/
theorem snprintfF_core_mem {dec : Nat} {n : Int} {c : Char}
    (hc : c ∈ intDigits n ++
      (if dec = 0 then [] else '.' :: List.replicate dec '0')) :
    c = '-' ∨ c = '.' ∨ c.isDigit = true := by
  rcases List.mem_append.1 hc with h1 | h1
  · unfold intDigits at h1
    split at h1
    · rcases List.mem_cons.1 h1 with h2 | h2
      · exact Or.inl h2
      · exact Or.inr (Or.inr (natDigits_all_digit _ c h2))
    · exact Or.inr (Or.inr (natDigits_all_digit _ c h1))
  · split at h1
    · simp at h1
    · rcases List.mem_cons.1 h1 with h2 | h2
      · exact Or.inr (Or.inl h2)
      · have := List.eq_of_mem_replicate h2
        subst this
        exact Or.inr (Or.inr (by decide))

theorem snprintfF_core_ne_nil {dec : Nat} {n : Int} :
    intDigits n ++ (if dec = 0 then [] else '.' :: List.replicate dec '0') ≠ [] := by
  intro h
  rcases List.append_eq_nil.1 h with ⟨h1, _⟩
  unfold intDigits at h1
  split at h1
  · simp at h1
  · exact natDigits_ne_nil _ h1

theorem snprintfF_core_head {dec : Nat} {n : Int} {c : Char}
    (hc : (intDigits n ++
      (if dec = 0 then [] else '.' :: List.replicate dec '0')).head? = some c) :
    c = '-' ∨ c.isDigit = true := by
  have hne := natDigits_ne_nil n.natAbs
  unfold intDigits at hc
  split at hc
  · simp at hc
    exact Or.inl hc.symm
  · rcases hd : natDigits n.natAbs with _ | ⟨a, t⟩
    · exact absurd hd hne
    · rw [hd] at hc
      simp at hc
      subst hc
      exact Or.inr (natDigits_all_digit n.natAbs a (by rw [hd]; simp))

/-! ## Offset prefix-sum lemmas -/

theorem offsetsFrom_length (b : Nat) (ws : List Nat) :
    (offsetsFrom b ws).length = ws.length := by
  induction ws generalizing b with
  | nil => rfl
  | cons w ws ih => simp [offsetsFrom, ih]

theorem offsetsFrom_append (b : Nat) (xs ys : List Nat) :
    offsetsFrom b (xs ++ ys) = offsetsFrom b xs ++ offsetsFrom (b + xs.sum) ys := by
  induction xs generalizing b with
  | nil => simp [offsetsFrom]
  | cons w xs ih =>
    rw [show (w :: xs) ++ ys = w :: (xs ++ ys) from rfl]
    show b :: offsetsFrom (b + w) (xs ++ ys) =
      offsetsFrom b (w :: xs) ++ offsetsFrom (b + (w :: xs).sum) ys
    rw [ih, List.sum_cons, show b + w + xs.sum = b + (w + xs.sum) by omega]
    rfl

theorem offsetsFrom_map_sub (c delw : Nat) (ys : List Nat) :
    (offsetsFrom (c + delw) ys).map (fun o => o - delw) = offsetsFrom c ys := by
  induction ys generalizing c with
  | nil => rfl
  | cons w ys ih =>
    simp only [offsetsFrom, List.map_cons]
    rw [show c + delw - delw = c by omega,
      show c + delw + w = c + w + delw by omega, ih]

theorem offsetsFrom_map_shift (c oldw neww : Nat) (ys : List Nat) :
    (offsetsFrom (c + oldw) ys).map (fun o => o + neww - oldw) =
      offsetsFrom (c + neww) ys := by
  induction ys generalizing c with
  | nil => rfl
  | cons w ys ih =>
    simp only [offsetsFrom, List.map_cons]
    rw [show c + oldw + neww - oldw = c + neww by omega,
      show c + oldw + w = c + w + oldw by omega, ih,
      show c + w + neww = c + neww + w by omega]

theorem offsetsFrom_getD (b : Nat) (ws : List Nat) (i : Nat) (h : i < ws.length) :
    (offsetsFrom b ws).getD i 0 = b + (ws.take i).sum := by
  induction ws generalizing b i with
  | nil => simp at h
  | cons w ws ih =>
    cases i with
    | zero => simp [offsetsFrom]
    | succ i =>
      simp only [offsetsFrom, List.getD_cons_succ, List.take_succ_cons,
        List.sum_cons]
      rw [ih _ _ (by simpa using h)]
      omega

theorem map_getD_range {α : Type} (l : List α) (dflt : α) :
    (List.range l.length).map (fun i => l.getD i dflt) = l := by
  induction l with
  | nil => simp
  | cons a l ih =>
    have hcomp : ((fun i => (a :: l).getD i dflt) ∘ Nat.succ) =
        (fun i => l.getD i dflt) := by
      funext i
      simp [List.getD_cons_succ]
    rw [List.length_cons, List.range_succ_eq_map, List.map_cons, List.map_map,
      List.getD_cons_zero, hcomp, ih]

/-! ## Well-formedness helper lemmas -/

theorem DBFWF.size_getD {d : DBFInfo} (h : DBFWF d) {i : Nat}
    (hi : i < d.nFields) : 1 ≤ d.panFieldSize.getD i 0 := by
  have hlt : i < d.panFieldSize.length := by rw [h.len_size]; exact hi
  rw [List.getD_eq_getElem _ _ hlt]
  exact h.sizes_pos _ (List.getElem_mem hlt)

theorem DBFWF.offset_getD {d : DBFInfo} (h : DBFWF d) {i : Nat}
    (hi : i < d.nFields) :
    d.panFieldOffset.getD i 0 = 1 + (d.panFieldSize.take i).sum := by
  have hlt : i < d.panFieldSize.length := by rw [h.len_size]; exact hi
  rw [h.offsets_eq, offsetsFrom_getD _ _ _ hlt]

theorem DBFWF.offset_pos {d : DBFInfo} (h : DBFWF d) {i : Nat}
    (hi : i < d.nFields) : 1 ≤ d.panFieldOffset.getD i 0 := by
  rw [h.offset_getD hi]
  omega

theorem DBFWF.offset_size_le {d : DBFInfo} (h : DBFWF d) {i : Nat}
    (hi : i < d.nFields) :
    d.panFieldOffset.getD i 0 + d.panFieldSize.getD i 0 ≤ d.nRecordLength := by
  have hlt : i < d.panFieldSize.length := by rw [h.len_size]; exact hi
  have hsum := List.sum_take_add_sum_drop d.panFieldSize (i + 1)
  have hts := List.sum_take_succ d.panFieldSize i hlt
  rw [h.offset_getD hi, h.recLen_eq, List.getD_eq_getElem _ _ hlt]
  omega

/-! ## State-transition helper lemmas -/

theorem appendBlank_panFieldOffset (d : DBFInfo) (e : Int) :
    (appendBlankIfNew d e).panFieldOffset = d.panFieldOffset := by
  unfold appendBlankIfNew
  split <;> rfl

theorem appendBlank_panFieldSize (d : DBFInfo) (e : Int) :
    (appendBlankIfNew d e).panFieldSize = d.panFieldSize := by
  unfold appendBlankIfNew
  split <;> rfl

theorem appendBlank_panFieldDecimals (d : DBFInfo) (e : Int) :
    (appendBlankIfNew d e).panFieldDecimals = d.panFieldDecimals := by
  unfold appendBlankIfNew
  split <;> rfl

theorem appendBlank_pachFieldType (d : DBFInfo) (e : Int) :
    (appendBlankIfNew d e).pachFieldType = d.pachFieldType := by
  unfold appendBlankIfNew
  split <;> rfl

theorem appendBlank_nFields (d : DBFInfo) (e : Int) :
    (appendBlankIfNew d e).nFields = d.nFields := by
  unfold appendBlankIfNew
  split <;> rfl

theorem appendBlank_nRecordLength (d : DBFInfo) (e : Int) :
    (appendBlankIfNew d e).nRecordLength = d.nRecordLength := by
  unfold appendBlankIfNew
  split <;> rfl

theorem appendBlank_nRecords_le {d : DBFInfo} {e : Int}
    (he1 : e ≤ (d.nRecords : Int)) :
    e < ((appendBlankIfNew d e).nRecords : Int) ∨ e < 0 := by
  unfold appendBlankIfNew
  split
  case isTrue h => left; simp [h]
  case isFalse h =>
    rcases lt_or_le e 0 with h1 | h1
    · right; exact h1
    · left
      rcases lt_or_eq_of_le he1 with h2 | h2
      · exact h2
      · exact absurd h2 h

theorem updateRecord_panFieldOffset (d : DBFInfo) (i : Nat) (f : List Char → List Char) :
    (updateRecord d i f).panFieldOffset = d.panFieldOffset := rfl

theorem updateRecord_panFieldSize (d : DBFInfo) (i : Nat) (f : List Char → List Char) :
    (updateRecord d i f).panFieldSize = d.panFieldSize := rfl

theorem updateRecord_pachFieldType (d : DBFInfo) (i : Nat) (f : List Char → List Char) :
    (updateRecord d i f).pachFieldType = d.pachFieldType := rfl

theorem updateRecord_nFields (d : DBFInfo) (i : Nat) (f : List Char → List Char) :
    (updateRecord d i f).nFields = d.nFields := rfl

theorem updateRecord_nRecords (d : DBFInfo) (i : Nat) (f : List Char → List Char) :
    (updateRecord d i f).nRecords = d.nRecords := rfl

theorem updateRecord_nRecordLength (d : DBFInfo) (i : Nat) (f : List Char → List Char) :
    (updateRecord d i f).nRecordLength = d.nRecordLength := rfl

theorem updateRecord_records_getD {d : DBFInfo} {i : Nat}
    {f : List Char → List Char} (hi : i < d.records.length) :
    (updateRecord d i f).records.getD i [] = f (d.records.getD i []) := by
  unfold updateRecord
  rw [List.getD_eq_getElem _ _ (by simpa using hi), List.getElem_set_self]

theorem appendBlank_records_len {d : DBFInfo} (hWF : DBFWF d) {e : Int}
    (he0 : 0 ≤ e) (he1 : e ≤ (d.nRecords : Int)) :
    e.toNat < (appendBlankIfNew d e).records.length ∧
    ((appendBlankIfNew d e).records.getD e.toNat []).length = d.nRecordLength := by
  unfold appendBlankIfNew
  split
  case isTrue h =>
    have he : e.toNat = d.records.length := by rw [hWF.len_records]; omega
    constructor
    · simp
      omega
    · rw [he, List.getD_eq_getElem _ _ (by simp),
        List.getElem_append_right (by omega)]
      simp
  case isFalse h =>
    have hlt : e.toNat < d.records.length := by rw [hWF.len_records]; omega
    exact ⟨hlt, by
      rw [List.getD_eq_getElem _ _ hlt]
      exact hWF.rec_len _ (List.getElem_mem hlt)⟩

theorem appendBlank_records_new {d : DBFInfo} (hWF : DBFWF d) :
    (appendBlankIfNew d (d.nRecords : Int)).records.getD
      ((d.nRecords : Int)).toNat [] = List.replicate d.nRecordLength ' ' := by
  unfold appendBlankIfNew
  rw [if_pos rfl]
  have he : ((d.nRecords : Int)).toNat = d.records.length := by
    rw [hWF.len_records]; simp
  rw [he, List.getD_eq_getElem _ _ (by simp), List.getElem_append_right (by omega)]
  simp

theorem appendBlank_records_old {d : DBFInfo} {e : Int}
    (he1 : e < (d.nRecords : Int)) :
    (appendBlankIfNew d e).records.getD e.toNat [] = d.records.getD e.toNat [] := by
  unfold appendBlankIfNew
  rw [if_neg (by omega)]

theorem DBFWF_appendBlank {d : DBFInfo} (h : DBFWF d) (e : Int) :
    DBFWF (appendBlankIfNew d e) := by
  unfold appendBlankIfNew
  split
  · exact
      { len_off := h.len_off
        len_size := h.len_size
        len_dec := h.len_dec
        len_type := h.len_type
        len_records := by simp [h.len_records]
        rec_len := by
          intro r hr
          rcases List.mem_append.1 hr with h1 | h1
          · exact h.rec_len r h1
          · simp only [List.mem_singleton] at h1
            subst h1
            simp
        offsets_eq := h.offsets_eq
        recLen_eq := h.recLen_eq
        sizes_pos := h.sizes_pos }
  · exact h

theorem DBFWF_updateRecord {d : DBFInfo} (h : DBFWF d) {i : Nat}
    {f : List Char → List Char}
    (hf : ∀ r, r.length = d.nRecordLength → (f r).length = d.nRecordLength)
    (hi : i < d.records.length) :
    DBFWF (updateRecord d i f) :=
  { len_off := h.len_off
    len_size := h.len_size
    len_dec := h.len_dec
    len_type := h.len_type
    len_records := by simp [updateRecord, h.len_records]
    rec_len := by
      intro r hr
      rcases List.mem_or_eq_of_mem_set hr with h1 | h1
      · exact h.rec_len r h1
      · subst h1
        apply hf
        rw [List.getD_eq_getElem _ _ hi]
        exact h.rec_len _ (List.getElem_mem hi)
    offsets_eq := h.offsets_eq
    recLen_eq := h.recLen_eq
    sizes_pos := h.sizes_pos }

/-! ## Write-operation unfolding lemmas -/

theorem writeAttribute_out_of_range (fmtF : Nat → Nat → Int → List Char)
    (atofF : List Char → Int) {d : DBFInfo} {e : Int} {iF : Nat}
    (v : DBFValue) (he : e < 0 ∨ (d.nRecords : Int) < e) :
    DBFWriteAttribute fmtF atofF d e iF v = (false, d) := by
  unfold DBFWriteAttribute
  rw [if_pos he]

theorem writeDirectly_out_of_range {d : DBFInfo} {e : Int} {iF : Int}
    (v : List Char) (he : e < 0 ∨ (d.nRecords : Int) < e) :
    DBFWriteAttributeDirectly d e iF v = (false, d) := by
  unfold DBFWriteAttributeDirectly
  rw [if_pos he]

theorem writeTuple_out_of_range {d : DBFInfo} {e : Int}
    (t : List Char) (he : e < 0 ∨ (d.nRecords : Int) < e) :
    DBFWriteTuple d e t = (false, d) := by
  unfold DBFWriteTuple
  rw [if_pos he]

theorem writeAttribute_null_eq (fmtF : Nat → Nat → Int → List Char)
    (atofF : List Char → Int) {d : DBFInfo} {e : Int} {iF : Nat}
    (he : ¬(e < 0 ∨ (d.nRecords : Int) < e)) :
    DBFWriteNULLAttribute fmtF atofF d e iF =
      (true, updateRecord (appendBlankIfNew d e) e.toNat (fun r =>
        setBytes r (d.panFieldOffset.getD iF 0)
          (List.replicate (d.panFieldSize.getD iF 0)
            (DBFGetNullCharacter (d.pachFieldType.getD iF ' '))))) := by
  unfold DBFWriteNULLAttribute DBFWriteAttribute
  rw [if_neg he]
  simp only [appendBlank_panFieldOffset, appendBlank_panFieldSize,
    appendBlank_pachFieldType]

theorem writeAttribute_logical_ok (fmtF : Nat → Nat → Int → List Char)
    (atofF : List Char → Int) {d : DBFInfo} {e : Int} {iF : Nat} {c : Char}
    (he : ¬(e < 0 ∨ (d.nRecords : Int) < e))
    (hty : d.pachFieldType.getD iF ' ' = 'L')
    (hsz : 1 ≤ d.panFieldSize.getD iF 0)
    (hc : c = 'F' ∨ c = 'T') :
    DBFWriteLogicalAttribute fmtF atofF d e iF c =
      (true, updateRecord (appendBlankIfNew d e) e.toNat (fun r =>
        setBytes r (d.panFieldOffset.getD iF 0) [c])) := by
  unfold DBFWriteLogicalAttribute DBFWriteAttribute
  rw [if_neg he]
  simp only [appendBlank_panFieldOffset, appendBlank_panFieldSize,
    appendBlank_pachFieldType, DBFValue.asLogical]
  rw [hty, if_neg (by decide), if_pos rfl, if_pos (And.intro hsz hc)]

theorem writeAttribute_logical_fail (fmtF : Nat → Nat → Int → List Char)
    (atofF : List Char → Int) {d : DBFInfo} {e : Int} {iF : Nat} {c : Char}
    (he : ¬(e < 0 ∨ (d.nRecords : Int) < e))
    (hty : d.pachFieldType.getD iF ' ' = 'L')
    (hc : ¬(c = 'F' ∨ c = 'T')) :
    DBFWriteLogicalAttribute fmtF atofF d e iF c =
      (false, appendBlankIfNew d e) := by
  unfold DBFWriteLogicalAttribute DBFWriteAttribute
  rw [if_neg he]
  simp only [appendBlank_panFieldOffset, appendBlank_panFieldSize,
    appendBlank_pachFieldType, DBFValue.asLogical]
  rw [hty, if_neg (by decide), if_pos rfl, if_neg (fun hand => hc hand.2)]

theorem writeAttribute_num_eq (fmtF : Nat → Nat → Int → List Char)
    (atofF : List Char → Int) {d : DBFInfo} {e : Int} {iF : Nat} (x : Int)
    (he : ¬(e < 0 ∨ (d.nRecords : Int) < e))
    (hty : d.pachFieldType.getD iF ' ' = 'D' ∨
      d.pachFieldType.getD iF ' ' = 'N' ∨ d.pachFieldType.getD iF ' ' = 'F') :
    DBFWriteAttribute fmtF atofF d e iF (.dbl x) =
      (let size := d.panFieldSize.getD iF 0
       let nWidth := if XBASE_FLD_MAX_WIDTH + 1 - 2 < size
         then XBASE_FLD_MAX_WIDTH + 1 - 2 else size
       let szSField := (fmtF nWidth (d.panFieldDecimals.getD iF 0) x).take
         XBASE_FLD_MAX_WIDTH
       if size < szSField.length then
         (decide (atofF (szSField.take size) = x),
          updateRecord (appendBlankIfNew d e) e.toNat (fun r =>
            setBytes r (d.panFieldOffset.getD iF 0) (szSField.take size)))
       else
         (true, updateRecord (appendBlankIfNew d e) e.toNat (fun r =>
           setBytes r (d.panFieldOffset.getD iF 0) szSField))) := by
  unfold DBFWriteAttribute
  rw [if_neg he]
  simp only [appendBlank_panFieldOffset, appendBlank_panFieldSize,
    appendBlank_panFieldDecimals, appendBlank_pachFieldType, DBFValue.asDbl]
  rw [if_pos hty]

theorem writeAttribute_str_eq (fmtF : Nat → Nat → Int → List Char)
    (atofF : List Char → Int) {d : DBFInfo} {e : Int} {iF : Nat} (s : List Char)
    (he : ¬(e < 0 ∨ (d.nRecords : Int) < e))
    (h1 : d.pachFieldType.getD iF ' ' ≠ 'D')
    (h2 : d.pachFieldType.getD iF ' ' ≠ 'N')
    (h3 : d.pachFieldType.getD iF ' ' ≠ 'F')
    (h4 : d.pachFieldType.getD iF ' ' ≠ 'L') :
    DBFWriteAttribute fmtF atofF d e iF (.str s) =
      (let size := d.panFieldSize.getD iF 0
       if size < s.length then
         (false, updateRecord (appendBlankIfNew d e) e.toNat (fun r =>
           setBytes r (d.panFieldOffset.getD iF 0) (s.take size)))
       else
         (true, updateRecord (appendBlankIfNew d e) e.toNat (fun r =>
           setBytes (setBytes r (d.panFieldOffset.getD iF 0)
             (List.replicate size ' ')) (d.panFieldOffset.getD iF 0) s))) := by
  unfold DBFWriteAttribute
  rw [if_neg he]
  simp only [appendBlank_panFieldOffset, appendBlank_panFieldSize,
    appendBlank_pachFieldType, DBFValue.asStr]
  rw [if_neg (by
    intro hor
    rcases hor with h | h | h
    · exact h1 h
    · exact h2 h
    · exact h3 h), if_neg h4]

theorem writeDirectly_fits_eq {d : DBFInfo} {e : Int} {iF : Int}
    (v : List Char) (he : ¬(e < 0 ∨ (d.nRecords : Int) < e)) (hif : 0 ≤ iF)
    (hfit : ¬(d.panFieldSize.getD iF.toNat 0 < v.length)) :
    DBFWriteAttributeDirectly d e iF v =
      (true, updateRecord (appendBlankIfNew d e) e.toNat (fun r =>
        setBytes (setBytes r (d.panFieldOffset.getD iF.toNat 0)
          (List.replicate (d.panFieldSize.getD iF.toNat 0) ' '))
          (d.panFieldOffset.getD iF.toNat 0) v)) := by
  unfold DBFWriteAttributeDirectly
  rw [if_neg he]
  simp only [appendBlank_panFieldOffset, appendBlank_panFieldSize]
  rw [if_pos hif, if_neg hfit]

theorem writeTuple_eq {d : DBFInfo} {e : Int} (t : List Char)
    (he : ¬(e < 0 ∨ (d.nRecords : Int) < e)) :
    DBFWriteTuple d e t =
      (true, updateRecord (appendBlankIfNew d e) e.toNat (fun r =>
        setBytes r 0 (t.take d.nRecordLength))) := by
  unfold DBFWriteTuple
  rw [if_neg he]
  simp only [appendBlank_nRecordLength]

/-! ## Read-side evaluation lemmas -/

theorem isAttributeNULL_eval {d : DBFInfo} {e iF : Int} (trim : Bool)
    (he0 : 0 ≤ e) (he1 : e < (d.nRecords : Int))
    (hf0 : 0 ≤ iF) (hf1 : iF < (d.nFields : Int)) :
    DBFIsAttributeNULL trim d e iF =
      DBFIsValueNULL (d.pachFieldType.getD iF.toNat ' ')
        (if trim then
          trimSpaces (cstr (fieldBytes (d.records.getD e.toNat [])
            (d.panFieldOffset.getD iF.toNat 0) (d.panFieldSize.getD iF.toNat 0)))
        else
          cstr (fieldBytes (d.records.getD e.toNat [])
            (d.panFieldOffset.getD iF.toNat 0) (d.panFieldSize.getD iF.toNat 0)))
        (d.panFieldSize.getD iF.toNat 0) := by
  unfold DBFIsAttributeNULL DBFReadStringAttribute DBFReadAttributeRaw
  rw [if_neg (by omega), if_neg (by omega)]
  cases trim <;> simp

theorem DBFGetNullCharacter_default {ty : Char} (h1 : ty ≠ 'N') (h2 : ty ≠ 'F')
    (h3 : ty ≠ 'D') (h4 : ty ≠ 'L') : DBFGetNullCharacter ty = ' ' := by
  unfold DBFGetNullCharacter
  rw [if_neg (by rintro (h | h); exacts [h1 h, h2 h]), if_neg h3, if_neg h4]

theorem isValueNULL_default {ty : Char} (h1 : ty ≠ 'N') (h2 : ty ≠ 'F')
    (h3 : ty ≠ 'D') (h4 : ty ≠ 'L') (v : List Char) (size : Nat) :
    DBFIsValueNULL ty v size = decide (v.length = 0) := by
  unfold DBFIsValueNULL
  rw [if_neg (by rintro (h | h); exacts [h1 h, h2 h]), if_neg h3, if_neg h4]

/-- The NULL sentinel fill of any field type is reported NULL by
`DBFIsValueNULL` after the (trimming) string read. -/
theorem isValueNULL_sentinel (ty : Char) {size : Nat} (hsz : 1 ≤ size) :
    DBFIsValueNULL ty
      (trimSpaces (cstr (List.replicate size (DBFGetNullCharacter ty)))) size =
      true := by
  by_cases hNF : ty = 'N' ∨ ty = 'F'
  · have hfill : DBFGetNullCharacter ty = '*' := by
      unfold DBFGetNullCharacter
      rw [if_pos hNF]
    rw [hfill,
      cstr_of_no_nul (fun c hc => by rw [List.eq_of_mem_replicate hc]; decide),
      trimSpaces_of_no_space (fun c hc => by
        rw [List.eq_of_mem_replicate hc]; decide)]
    unfold DBFIsValueNULL
    rw [if_pos hNF]
    have h0 : cstrByte (List.replicate size '*') 0 = '*' := by
      unfold cstrByte
      exact getD_replicate (by omega)
    rw [if_pos h0]
  · by_cases hD : ty = 'D'
    · have hfill : DBFGetNullCharacter ty = '0' := by
        unfold DBFGetNullCharacter
        rw [if_neg hNF, if_pos hD]
      rw [hfill,
        cstr_of_no_nul (fun c hc => by rw [List.eq_of_mem_replicate hc]; decide),
        trimSpaces_of_no_space (fun c hc => by
          rw [List.eq_of_mem_replicate hc]; decide)]
      unfold DBFIsValueNULL
      rw [if_neg hNF, if_pos hD]
      split
      · rfl
      · simp only [List.all_eq_true, List.mem_range, decide_eq_true_eq]
        intro i hi
        unfold cstrByte
        exact getD_replicate hi
    · by_cases hL : ty = 'L'
      · have hfill : DBFGetNullCharacter ty = '?' := by
          unfold DBFGetNullCharacter
          rw [if_neg hNF, if_neg hD, if_pos hL]
        rw [hfill,
          cstr_of_no_nul (fun c hc => by
            rw [List.eq_of_mem_replicate hc]; decide),
          trimSpaces_of_no_space (fun c hc => by
            rw [List.eq_of_mem_replicate hc]; decide)]
        unfold DBFIsValueNULL
        rw [if_neg hNF, if_neg hD, if_pos hL]
        have h0 : cstrByte (List.replicate size '?') 0 = '?' := by
          unfold cstrByte
          exact getD_replicate (by omega)
        simp [h0]
      · have h1 : ty ≠ 'N' := fun h => hNF (Or.inl h)
        have h2 : ty ≠ 'F' := fun h => hNF (Or.inr h)
        rw [DBFGetNullCharacter_default h1 h2 hD hL,
          cstr_of_no_nul (fun c hc => by
            rw [List.eq_of_mem_replicate hc]; decide),
          trimSpaces_eq_nil_iff.2 (fun c hc => List.eq_of_mem_replicate hc),
          isValueNULL_default h1 h2 hD hL]
        simp

theorem isValueNULL_num_false {ty : Char} (hty : ty = 'N' ∨ ty = 'F')
    {v : List Char} {size : Nat} {c : Char}
    (hhead : v.head? = some c) (hc : c ≠ '*') (hw : ∃ x ∈ v, x ≠ ' ') :
    DBFIsValueNULL ty v size = false := by
  unfold DBFIsValueNULL
  rw [if_pos hty]
  rcases v with _ | ⟨a, t⟩
  · simp at hhead
  · simp only [List.head?_cons, Option.some.injEq] at hhead
    subst hhead
    rw [if_neg (by unfold cstrByte; simpa using hc)]
    rw [List.all_eq_false]
    rcases hw with ⟨x, hx, hxs⟩
    exact ⟨x, hx, by simpa using hxs⟩

theorem isValueNULL_L_false {v : List Char} {size : Nat} {c : Char}
    (hhead : v.head? = some c) (hc : c ≠ '?') :
    DBFIsValueNULL 'L' v size = false := by
  unfold DBFIsValueNULL
  rw [if_neg (by decide), if_neg (by decide), if_pos rfl]
  rcases v with _ | ⟨a, t⟩
  · simp at hhead
  · simp only [List.head?_cons, Option.some.injEq] at hhead
    subst hhead
    simp only [cstrByte, List.getD_cons_zero]
    simpa using hc

theorem isValueNULL_D_false {v : List Char} (hlen : v.length = 8)
    (hnul : ∀ c ∈ v, c ≠ '\x00') (hne : v ≠ List.replicate 8 '0') :
    DBFIsValueNULL 'D' v 8 = false := by
  unfold DBFIsValueNULL
  rw [if_neg (by decide), if_pos rfl]
  have hz : ∀ c ∈ List.replicate 8 '0', c ≠ '\x00' := fun c hc => by
    rw [List.eq_of_mem_replicate hc]; decide
  have hnil : v ≠ [] := by
    intro h
    rw [h] at hlen
    simp at hlen
  have hs8 : strncmp v (List.replicate 8 '0') 8 ≠ 0 := by
    intro h
    have := (strncmp_eq_zero_iff 8 hnul hz).1 h
    rw [List.take_of_length_le (by omega),
      List.take_of_length_le (by simp)] at this
    exact hne (by simpa using this)
  have hsp : strcmp v [' '] ≠ 0 := by
    intro h
    have := (strcmp_eq_zero_iff hnul (by intro c hc; simp at hc; subst hc; decide)).1 h
    rw [this] at hlen
    simp at hlen
  have hz1 : strcmp v ['0'] ≠ 0 := by
    intro h
    have := (strcmp_eq_zero_iff hnul (by intro c hc; simp at hc; subst hc; decide)).1 h
    rw [this] at hlen
    simp at hlen
  rw [if_neg (by
    rintro (h | h | h | h)
    exacts [hnil h, hs8 h, hsp h, hz1 h])]
  rw [List.all_eq_false]
  by_contra hno
  push_neg at hno
  apply hne
  apply List.ext_getElem (by simp [hlen])
  intro n h1 h2
  have hn8 : n < 8 := by
    rw [hlen] at h1
    exact h1
  have hd := hno n (List.mem_range.2 hn8)
  have hv : cstrByte v n = '0' := by simpa using hd
  unfold cstrByte at hv
  rw [List.getD_eq_getElem _ _ (by omega)] at hv
  rw [hv]
  interval_cases n <;> rfl

theorem isValueNULL_str_false {ty : Char} (h1 : ty ≠ 'N') (h2 : ty ≠ 'F')
    (h3 : ty ≠ 'D') (h4 : ty ≠ 'L') {v : List Char} (hv : v ≠ []) (size : Nat) :
    DBFIsValueNULL ty v size = false := by
  rw [isValueNULL_default h1 h2 h3 h4]
  simp [List.length_eq_zero, hv]

theorem head?_take {l : List Char} {m : Nat} (hm : 1 ≤ m) :
    (l.take m).head? = l.head? := by
  rcases l with _ | ⟨a, t⟩
  · simp
  · rcases m with _ | m
    · omega
    · simp

theorem head?_append_left {l1 l2 : List Char} {c : Char}
    (h : l1.head? = some c) : (l1 ++ l2).head? = some c := by
  rcases l1 with _ | ⟨a, t⟩
  · simp at h
  · simpa using h

/-- The field bytes laid down by the numeric branch of `DBFWriteAttribute`
over a `'*'`-filled (NULL) numeric field are never reported NULL: the
stored rendering keeps a sign or digit as its first non-space byte. -/
theorem numeric_store_not_null {ty : Char} (hty : ty = 'N' ∨ ty = 'F')
    {size dec : Nat} (hsz : 1 ≤ size) (n : Int) :
    (if size < (((snprintfFModel (if XBASE_FLD_MAX_WIDTH + 1 - 2 < size
          then XBASE_FLD_MAX_WIDTH + 1 - 2 else size) dec n).take
          XBASE_FLD_MAX_WIDTH)).length
     then (((snprintfFModel (if XBASE_FLD_MAX_WIDTH + 1 - 2 < size
          then XBASE_FLD_MAX_WIDTH + 1 - 2 else size) dec n).take
          XBASE_FLD_MAX_WIDTH)).take size
     else ((snprintfFModel (if XBASE_FLD_MAX_WIDTH + 1 - 2 < size
          then XBASE_FLD_MAX_WIDTH + 1 - 2 else size) dec n).take
          XBASE_FLD_MAX_WIDTH)).length ≤ size ∧
    DBFIsValueNULL ty
      (trimSpaces (cstr
        ((if size < (((snprintfFModel (if XBASE_FLD_MAX_WIDTH + 1 - 2 < size
              then XBASE_FLD_MAX_WIDTH + 1 - 2 else size) dec n).take
              XBASE_FLD_MAX_WIDTH)).length
          then (((snprintfFModel (if XBASE_FLD_MAX_WIDTH + 1 - 2 < size
              then XBASE_FLD_MAX_WIDTH + 1 - 2 else size) dec n).take
              XBASE_FLD_MAX_WIDTH)).take size
          else ((snprintfFModel (if XBASE_FLD_MAX_WIDTH + 1 - 2 < size
              then XBASE_FLD_MAX_WIDTH + 1 - 2 else size) dec n).take
              XBASE_FLD_MAX_WIDTH)) ++
          List.replicate (size - (if size < (((snprintfFModel
              (if XBASE_FLD_MAX_WIDTH + 1 - 2 < size
                then XBASE_FLD_MAX_WIDTH + 1 - 2 else size) dec n).take
              XBASE_FLD_MAX_WIDTH)).length
            then (((snprintfFModel (if XBASE_FLD_MAX_WIDTH + 1 - 2 < size
                then XBASE_FLD_MAX_WIDTH + 1 - 2 else size) dec n).take
                XBASE_FLD_MAX_WIDTH)).take size
            else ((snprintfFModel (if XBASE_FLD_MAX_WIDTH + 1 - 2 < size
                then XBASE_FLD_MAX_WIDTH + 1 - 2 else size) dec n).take
                XBASE_FLD_MAX_WIDTH)).length) '*'))) size = false := by
  unfold XBASE_FLD_MAX_WIDTH
  set w := if 255 + 1 - 2 < size then 255 + 1 - 2 else size with hw
  set core := intDigits n ++
    (if dec = 0 then [] else '.' :: List.replicate dec '0') with hcore
  have hwle : w ≤ size ∧ w ≤ 254 := by
    rw [hw]
    split <;> omega
  have hcne : core ≠ [] := snprintfF_core_ne_nil
  have hclen : 1 ≤ core.length := by
    rcases core with _ | _
    · exact absurd rfl hcne
    · simp
  have hcmem : ∀ c ∈ core, c = '-' ∨ c = '.' ∨ c.isDigit = true :=
    fun c hc => snprintfF_core_mem hc
  obtain ⟨c0, hc0⟩ : ∃ c0, core.head? = some c0 := by
    rcases core with _ | ⟨a, t⟩
    · exact absurd rfl hcne
    · exact ⟨a, rfl⟩
  have hc0p : c0 = '-' ∨ c0.isDigit = true := snprintfF_core_head hc0
  have hfmt : snprintfFModel w dec n =
      List.replicate (w - core.length) ' ' ++ core := rfl
  set k := w - core.length with hk
  have hk255 : k ≤ 255 := by omega
  have hszS : (snprintfFModel w dec n).take 255 =
      List.replicate k ' ' ++ core.take (255 - k) := by
    rw [hfmt, take_append_of_le_len (by simp [hk255])]
    congr 2
    simp
  have hkle : k ≤ size := by omega
  set tail0 := core.take (255 - k) with htail0
  have htail0_ne : tail0 ≠ [] := by
    rw [htail0]
    intro h
    have := congrArg List.length h
    simp only [List.length_take, List.length_nil] at this
    omega
  have htail0_head : tail0.head? = some c0 := by
    rw [htail0, head?_take (by omega)]
    exact hc0
  have htail0_mem : ∀ c ∈ tail0, c = '-' ∨ c = '.' ∨ c.isDigit = true :=
    fun c hc => hcmem c (List.take_subset _ _ hc)
  -- the stored bytes, in both the truncated and the fitting case, are
  -- leading spaces followed by a nonempty sign/digit tail
  have key : ∀ stored : List Char, ∀ tail : List Char, tail ≠ [] →
      tail.head? = some c0 →
      (∀ c ∈ tail, c = '-' ∨ c = '.' ∨ c.isDigit = true) →
      stored = List.replicate k ' ' ++ tail →
      DBFIsValueNULL ty (trimSpaces (cstr
        (stored ++ List.replicate (size - stored.length) '*'))) size = false := by
    intro stored tail htne hthead htmem hstored
    have htch : ∀ c ∈ tail, c ≠ ' ' ∧ c ≠ '\x00' ∧ c ≠ '*' := by
      intro c hc
      rcases htmem c hc with h | h | h
      · subst h
        refine ⟨by decide, by decide, by decide⟩
      · subst h
        refine ⟨by decide, by decide, by decide⟩
      · exact ⟨isDigit_ne_space h, isDigit_ne_nul h, isDigit_ne_star h⟩
    have harr : stored ++ List.replicate (size - stored.length) '*' =
        List.replicate k ' ' ++
          (tail ++ List.replicate (size - stored.length) '*') := by
      rw [hstored, List.append_assoc]
    rw [harr]
    have hnul : ∀ c ∈ List.replicate k ' ' ++
        (tail ++ List.replicate (size - stored.length) '*'), c ≠ '\x00' := by
      intro c hc
      rcases List.mem_append.1 hc with h | h
      · rw [List.eq_of_mem_replicate h]
        decide
      · rcases List.mem_append.1 h with h | h
        · exact (htch c h).2.1
        · rw [List.eq_of_mem_replicate h]
          decide
    rw [cstr_of_no_nul hnul]
    rw [trimSpaces_sp_append k (by
      intro c hc
      rcases List.mem_append.1 hc with h | h
      · exact (htch c h).1
      · rw [List.eq_of_mem_replicate h]
        decide)]
    apply isValueNULL_num_false hty (head?_append_left hthead)
    · rcases hc0p with h | h
      · subst h
        decide
      · exact isDigit_ne_star h
    · refine ⟨c0, List.mem_append.2 (Or.inl (List.mem_of_mem_head? (by
        rw [hthead]; rfl))), ?_⟩
      rcases hc0p with h | h
      · subst h
        decide
      · exact isDigit_ne_space h
  rw [hszS]
  by_cases hcase : size < (List.replicate k ' ' ++ tail0).length
  · rw [if_pos hcase]
    constructor
    · simp only [List.length_take, List.length_append, List.length_replicate]
      omega
    · have htl : tail0.length ≤ 255 - k := by
        rw [htail0]
        simp
      have hsk : 1 ≤ size - k := by
        simp only [List.length_append, List.length_replicate] at hcase
        by_cases hws : w = size
        · omega
        · have hw254 : w = 254 := by
            by_cases hlt : 255 + 1 - 2 < size
            · rw [hw, if_pos hlt]
            · exfalso
              apply hws
              rw [hw, if_neg hlt]
          omega
      have hstored : (List.replicate k ' ' ++ tail0).take size =
          List.replicate k ' ' ++ tail0.take (size - k) := by
        rw [take_append_of_le_len (by simp [hkle])]
        congr 2
        simp
      rw [hstored]
      apply key _ (tail0.take (size - k))
      · intro h
        have := congrArg List.length h
        simp only [List.length_take, List.length_nil] at this
        have h1 : 1 ≤ tail0.length := by
          rcases tail0 with _ | _
          · exact absurd rfl htail0_ne
          · simp
        omega
      · rw [head?_take hsk]
        exact htail0_head
      · exact fun c hc => htail0_mem c (List.take_subset _ _ hc)
      · rfl
  · rw [if_neg hcase]
    constructor
    · omega
    · exact key _ tail0 htail0_ne htail0_head htail0_mem rfl

theorem fieldBytes_memset_copy {rec s : List Char} {off size : Nat}
    (hsz : off + size ≤ rec.length) (hs : s.length ≤ size) :
    fieldBytes (setBytes (setBytes rec off (List.replicate size ' ')) off s)
      off size = s ++ List.replicate (size - s.length) ' ' := by
  have h1len : (setBytes rec off (List.replicate size ' ')).length = rec.length :=
    setBytes_length (by simpa using hsz)
  have hinner : fieldBytes (setBytes rec off (List.replicate size ' ')) off size =
      List.replicate size ' ' := by
    rw [fieldBytes_setBytes hsz (by simp)]
    rw [show (List.replicate size ' ' : List Char).length = size from by simp]
    rw [List.drop_eq_nil_of_le (by simp [length_fieldBytes hsz])]
    exact List.append_nil _
  rw [fieldBytes_setBytes (by omega) hs, hinner, List.drop_replicate]

theorem fieldBytes_fill {rec : List Char} {off size : Nat} (fill : Char)
    (hsz : off + size ≤ rec.length) :
    fieldBytes (setBytes rec off (List.replicate size fill)) off size =
      List.replicate size fill := by
  rw [fieldBytes_setBytes hsz (by simp)]
  rw [show (List.replicate size fill : List Char).length = size from by simp]
  rw [List.drop_eq_nil_of_le (by simp [length_fieldBytes hsz])]
  exact List.append_nil _

theorem appendBlank_of_lt {d : DBFInfo} {e : Int}
    (h : e < (d.nRecords : Int)) : appendBlankIfNew d e = d := by
  unfold appendBlankIfNew
  rw [if_neg (by omega)]

theorem fmtDate_all_digit (y m d : Nat) :
    ∀ c ∈ fmtDate y m d, c.isDigit = true := by
  intro c hc
  unfold fmtDate fmt4 fmt2 at hc
  simp only [List.cons_append, List.nil_append, List.mem_cons,
    List.not_mem_nil, or_false] at hc
  rcases hc with h | h | h | h | h | h | h | h <;> subst h <;>
    exact digitChar_isDigit (Nat.mod_lt _ (by omega))

theorem fmtDate_ne_zeros {y m d : Nat} (hy : y < 10000) (hm : m < 100)
    (hd : d < 100) (h : ¬(y = 0 ∧ m = 0 ∧ d = 0)) :
    fmtDate y m d ≠ List.replicate 8 '0' := by
  intro heq
  apply h
  unfold fmtDate fmt4 fmt2 at heq
  rw [show (List.replicate 8 '0' : List Char) =
    ['0', '0', '0', '0', '0', '0', '0', '0'] from rfl] at heq
  simp only [List.cons_append, List.nil_append, List.cons.injEq,
    and_true] at heq
  obtain ⟨e1, e2, e3, e4, e5, e6, e7, e8⟩ := heq
  have d1 := (digitChar_eq_zero_iff (Nat.mod_lt _ (by omega))).1 e1
  have d2 := (digitChar_eq_zero_iff (Nat.mod_lt _ (by omega))).1 e2
  have d3 := (digitChar_eq_zero_iff (Nat.mod_lt _ (by omega))).1 e3
  have d4 := (digitChar_eq_zero_iff (Nat.mod_lt _ (by omega))).1 e4
  have d5 := (digitChar_eq_zero_iff (Nat.mod_lt _ (by omega))).1 e5
  have d6 := (digitChar_eq_zero_iff (Nat.mod_lt _ (by omega))).1 e6
  have d7 := (digitChar_eq_zero_iff (Nat.mod_lt _ (by omega))).1 e7
  have d8 := (digitChar_eq_zero_iff (Nat.mod_lt _ (by omega))).1 e8
  refine ⟨?_, ?_, ?_⟩ <;> omega

theorem DBFWF.record_len_getD {d : DBFInfo} (h : DBFWF d) {i : Nat}
    (hi : i < d.records.length) :
    (d.records.getD i []).length = d.nRecordLength := by
  rw [List.getD_eq_getElem _ _ hi]
  exact h.rec_len _ (List.getElem_mem hi)

theorem updateRecord_panFieldDecimals (d : DBFInfo) (i : Nat)
    (f : List Char → List Char) :
    (updateRecord d i f).panFieldDecimals = d.panFieldDecimals := rfl

/-- Fact pack about the state left by `DBFWriteNULLAttribute` at a valid
record/field: the write succeeds, well-formedness and the schema are
preserved, the record is now in range, the field bytes are the sentinel
fill, and `DBFIsAttributeNULL` reports TRUE. -/
theorem null_write_pack (d : DBFInfo) (hWF : DBFWF d) (e : Int) (iF : Nat)
    (he0 : 0 ≤ e) (he1 : e ≤ (d.nRecords : Int)) (hiF : iF < d.nFields)
    (fmtF : Nat → Nat → Int → List Char) (atofF : List Char → Int) :
    (DBFWriteNULLAttribute fmtF atofF d e iF).1 = true ∧
    DBFWF (DBFWriteNULLAttribute fmtF atofF d e iF).2 ∧
    (DBFWriteNULLAttribute fmtF atofF d e iF).2.nFields = d.nFields ∧
    (DBFWriteNULLAttribute fmtF atofF d e iF).2.panFieldOffset = d.panFieldOffset ∧
    (DBFWriteNULLAttribute fmtF atofF d e iF).2.panFieldSize = d.panFieldSize ∧
    (DBFWriteNULLAttribute fmtF atofF d e iF).2.pachFieldType = d.pachFieldType ∧
    (DBFWriteNULLAttribute fmtF atofF d e iF).2.panFieldDecimals =
      d.panFieldDecimals ∧
    (DBFWriteNULLAttribute fmtF atofF d e iF).2.nRecordLength = d.nRecordLength ∧
    e < ((DBFWriteNULLAttribute fmtF atofF d e iF).2.nRecords : Int) ∧
    fieldBytes
      ((DBFWriteNULLAttribute fmtF atofF d e iF).2.records.getD e.toNat [])
      (d.panFieldOffset.getD iF 0) (d.panFieldSize.getD iF 0) =
      List.replicate (d.panFieldSize.getD iF 0)
        (DBFGetNullCharacter (d.pachFieldType.getD iF ' ')) ∧
    DBFIsAttributeNULL true (DBFWriteNULLAttribute fmtF atofF d e iF).2 e
      (iF : Int) = true := by
  have hguard : ¬(e < 0 ∨ (d.nRecords : Int) < e) := by omega
  have hw := @writeAttribute_null_eq fmtF atofF d e iF hguard
  have hsz1 : 1 ≤ d.panFieldSize.getD iF 0 := hWF.size_getD hiF
  have hoffsz : d.panFieldOffset.getD iF 0 + d.panFieldSize.getD iF 0 ≤
      d.nRecordLength := hWF.offset_size_le hiF
  obtain ⟨hlt, hlen⟩ := appendBlank_records_len hWF he0 he1
  have hWFa : DBFWF (appendBlankIfNew d e) := DBFWF_appendBlank hWF e
  have h2 : (DBFWriteNULLAttribute fmtF atofF d e iF).2 =
      updateRecord (appendBlankIfNew d e) e.toNat (fun r =>
        setBytes r (d.panFieldOffset.getD iF 0)
          (List.replicate (d.panFieldSize.getD iF 0)
            (DBFGetNullCharacter (d.pachFieldType.getD iF ' ')))) := by
    rw [hw]
  have hfpres : ∀ r : List Char,
      r.length = (appendBlankIfNew d e).nRecordLength →
      (setBytes r (d.panFieldOffset.getD iF 0)
        (List.replicate (d.panFieldSize.getD iF 0)
          (DBFGetNullCharacter (d.pachFieldType.getD iF ' ')))).length =
        (appendBlankIfNew d e).nRecordLength := by
    intro r hr
    rw [appendBlank_nRecordLength] at hr ⊢
    rw [setBytes_length (by rw [List.length_replicate]; omega)]
    exact hr
  have hWF2 : DBFWF (DBFWriteNULLAttribute fmtF atofF d e iF).2 := by
    rw [h2]
    exact DBFWF_updateRecord hWFa hfpres hlt
  have hrec2 : (DBFWriteNULLAttribute fmtF atofF d e iF).2.records.getD
      e.toNat [] =
      setBytes ((appendBlankIfNew d e).records.getD e.toNat [])
        (d.panFieldOffset.getD iF 0)
        (List.replicate (d.panFieldSize.getD iF 0)
          (DBFGetNullCharacter (d.pachFieldType.getD iF ' '))) := by
    rw [h2, updateRecord_records_getD hlt]
  have hfb : fieldBytes
      ((DBFWriteNULLAttribute fmtF atofF d e iF).2.records.getD e.toNat [])
      (d.panFieldOffset.getD iF 0) (d.panFieldSize.getD iF 0) =
      List.replicate (d.panFieldSize.getD iF 0)
        (DBFGetNullCharacter (d.pachFieldType.getD iF ' ')) := by
    rw [hrec2]
    exact fieldBytes_fill _ (by rw [hlen]; exact hoffsz)
  have hn2 : e < ((DBFWriteNULLAttribute fmtF atofF d e iF).2.nRecords : Int) := by
    rw [h2, updateRecord_nRecords]
    rcases appendBlank_nRecords_le he1 with h | h
    · exact h
    · omega
  have hproj2 : (DBFWriteNULLAttribute fmtF atofF d e iF).2.panFieldOffset =
      d.panFieldOffset := by
    rw [h2, updateRecord_panFieldOffset, appendBlank_panFieldOffset]
  have hproj3 : (DBFWriteNULLAttribute fmtF atofF d e iF).2.panFieldSize =
      d.panFieldSize := by
    rw [h2, updateRecord_panFieldSize, appendBlank_panFieldSize]
  have hproj4 : (DBFWriteNULLAttribute fmtF atofF d e iF).2.pachFieldType =
      d.pachFieldType := by
    rw [h2, updateRecord_pachFieldType, appendBlank_pachFieldType]
  have hproj5 : (DBFWriteNULLAttribute fmtF atofF d e iF).2.panFieldDecimals =
      d.panFieldDecimals := by
    rw [h2, updateRecord_panFieldDecimals, appendBlank_panFieldDecimals]
  have hproj1 : (DBFWriteNULLAttribute fmtF atofF d e iF).2.nFields =
      d.nFields := by
    rw [h2, updateRecord_nFields, appendBlank_nFields]
  have hproj6 : (DBFWriteNULLAttribute fmtF atofF d e iF).2.nRecordLength =
      d.nRecordLength := by
    rw [h2, updateRecord_nRecordLength, appendBlank_nRecordLength]
  refine ⟨by rw [hw], hWF2, hproj1, hproj2, hproj3, hproj4, hproj5, hproj6,
    hn2, hfb, ?_⟩
  rw [isAttributeNULL_eval true he0 hn2 (by positivity)
    (by rw [hproj1]; exact_mod_cast hiF)]
  rw [if_pos rfl]
  rw [show ((iF : Int)).toNat = iF from by simp]
  rw [hproj2, hproj3, hproj4, hfb]
  exact isValueNULL_sentinel _ hsz1

/-- After a NULL write, a valid logical write makes the field non-NULL. -/
theorem null_then_logical (d : DBFInfo) (hWF : DBFWF d) (e : Int) (iF : Nat)
    (he0 : 0 ≤ e) (he1 : e ≤ (d.nRecords : Int)) (hiF : iF < d.nFields)
    (fmtF : Nat → Nat → Int → List Char) (atofF : List Char → Int) (c : Char)
    (hty : d.pachFieldType.getD iF ' ' = 'L') (hc : c = 'F' ∨ c = 'T') :
    DBFIsAttributeNULL true
      (DBFWriteLogicalAttribute fmtF atofF
        (DBFWriteNULLAttribute fmtF atofF d e iF).2 e iF c).2 e (iF : Int) =
      false := by
  obtain ⟨-, hWF1, hnf1, hoff1, hsz1, hty1, hdec1, hrl1, hn1, hfb1, -⟩ :=
    null_write_pack d hWF e iF he0 he1 hiF fmtF atofF
  set d1 := (DBFWriteNULLAttribute fmtF atofF d e iF).2 with hd1
  have hszp : 1 ≤ d.panFieldSize.getD iF 0 := hWF.size_getD hiF
  have hoffsz : d.panFieldOffset.getD iF 0 + d.panFieldSize.getD iF 0 ≤
      d.nRecordLength := hWF.offset_size_le hiF
  have hw := @writeAttribute_logical_ok fmtF atofF d1 e iF c
    (by omega) (by rw [hty1]; exact hty) (by rw [hsz1]; exact hszp) hc
  have hab : appendBlankIfNew d1 e = d1 := appendBlank_of_lt hn1
  have hlt1 : e.toNat < d1.records.length := by
    rw [hWF1.len_records]
    omega
  have hrec2 : (DBFWriteLogicalAttribute fmtF atofF d1 e iF c).2.records.getD
      e.toNat [] =
      setBytes (d1.records.getD e.toNat []) (d1.panFieldOffset.getD iF 0) [c] := by
    rw [hw, hab, updateRecord_records_getD hlt1]
  have hreclen : (d1.records.getD e.toNat []).length = d.nRecordLength := by
    rw [hWF1.record_len_getD hlt1, hrl1]
  have hfb2 : fieldBytes
      ((DBFWriteLogicalAttribute fmtF atofF d1 e iF c).2.records.getD e.toNat [])
      (d.panFieldOffset.getD iF 0) (d.panFieldSize.getD iF 0) =
      c :: List.replicate (d.panFieldSize.getD iF 0 - 1) '?' := by
    rw [hrec2, hoff1,
      fieldBytes_setBytes (by rw [hreclen]; exact hoffsz)
        (by rw [show ([c] : List Char).length = 1 from rfl]; exact hszp), hfb1]
    rw [hty]
    rw [show DBFGetNullCharacter 'L' = '?' from by decide]
    rw [show ([c] : List Char).length = 1 from rfl, List.drop_replicate]
    rfl
  have hn2 : e < ((DBFWriteLogicalAttribute fmtF atofF d1 e iF c).2.nRecords :
      Int) := by
    rw [hw, hab, updateRecord_nRecords]
    exact hn1
  have hproj : (DBFWriteLogicalAttribute fmtF atofF d1 e iF c).2.panFieldOffset =
      d.panFieldOffset ∧
      (DBFWriteLogicalAttribute fmtF atofF d1 e iF c).2.panFieldSize =
        d.panFieldSize ∧
      (DBFWriteLogicalAttribute fmtF atofF d1 e iF c).2.pachFieldType =
        d.pachFieldType ∧
      (DBFWriteLogicalAttribute fmtF atofF d1 e iF c).2.nFields = d.nFields := by
    rw [hw, hab]
    exact ⟨by rw [updateRecord_panFieldOffset, hoff1],
      by rw [updateRecord_panFieldSize, hsz1],
      by rw [updateRecord_pachFieldType, hty1],
      by rw [updateRecord_nFields, hnf1]⟩
  obtain ⟨hp1, hp2, hp3, hp4⟩ := hproj
  rw [isAttributeNULL_eval true he0 hn2 (by positivity)
    (by rw [hp4]; exact_mod_cast hiF)]
  rw [if_pos rfl]
  rw [show ((iF : Int)).toNat = iF from by simp]
  rw [hp1, hp2, hp3, hfb2, hty]
  have hcnul : ∀ x ∈ c :: List.replicate (d.panFieldSize.getD iF 0 - 1) '?',
      x ≠ '\x00' := by
    intro x hx
    rcases List.mem_cons.1 hx with h | h
    · subst h
      rcases hc with h | h <;> subst h <;> decide
    · rw [List.eq_of_mem_replicate h]
      decide
  rw [cstr_of_no_nul hcnul]
  rw [trimSpaces_of_no_space (by
    intro x hx
    rcases List.mem_cons.1 hx with h | h
    · subst h
      rcases hc with h | h <;> subst h <;> decide
    · rw [List.eq_of_mem_replicate h]
      decide)]
  exact isValueNULL_L_false (c := c) rfl (by rcases hc with h | h <;> subst h <;> decide)

/-- After a NULL write, a string write carrying a non-space byte makes a
string-typed field non-NULL (trimming enabled). -/
theorem null_then_string (d : DBFInfo) (hWF : DBFWF d) (e : Int) (iF : Nat)
    (he0 : 0 ≤ e) (he1 : e ≤ (d.nRecords : Int)) (hiF : iF < d.nFields)
    (fmtF : Nat → Nat → Int → List Char) (atofF : List Char → Int)
    (s : List Char)
    (ht1 : d.pachFieldType.getD iF ' ' ≠ 'D')
    (ht2 : d.pachFieldType.getD iF ' ' ≠ 'N')
    (ht3 : d.pachFieldType.getD iF ' ' ≠ 'F')
    (ht4 : d.pachFieldType.getD iF ' ' ≠ 'L')
    (hfit : s.length ≤ d.panFieldSize.getD iF 0)
    (hnul : ∀ c ∈ s, c ≠ '\x00') (hwit : ∃ c ∈ s, c ≠ ' ') :
    DBFIsAttributeNULL true
      (DBFWriteStringAttribute fmtF atofF
        (DBFWriteNULLAttribute fmtF atofF d e iF).2 e iF s).2 e (iF : Int) =
      false := by
  obtain ⟨-, hWF1, hnf1, hoff1, hsz1, hty1, hdec1, hrl1, hn1, hfb1, -⟩ :=
    null_write_pack d hWF e iF he0 he1 hiF fmtF atofF
  set d1 := (DBFWriteNULLAttribute fmtF atofF d e iF).2 with hd1
  have hoffsz : d.panFieldOffset.getD iF 0 + d.panFieldSize.getD iF 0 ≤
      d.nRecordLength := hWF.offset_size_le hiF
  have hw0 := @writeAttribute_str_eq fmtF atofF d1 e iF s
    (by omega) (by rw [hty1]; exact ht1) (by rw [hty1]; exact ht2)
    (by rw [hty1]; exact ht3) (by rw [hty1]; exact ht4)
  rw [hsz1] at hw0
  rw [if_neg (by omega)] at hw0
  unfold DBFWriteStringAttribute
  have hab : appendBlankIfNew d1 e = d1 := appendBlank_of_lt hn1
  have hlt1 : e.toNat < d1.records.length := by
    rw [hWF1.len_records]
    omega
  have hreclen : (d1.records.getD e.toNat []).length = d.nRecordLength := by
    rw [hWF1.record_len_getD hlt1, hrl1]
  have hrec2 : (DBFWriteAttribute fmtF atofF d1 e iF (.str s)).2.records.getD
      e.toNat [] =
      setBytes (setBytes (d1.records.getD e.toNat [])
        (d1.panFieldOffset.getD iF 0)
        (List.replicate (d.panFieldSize.getD iF 0) ' '))
        (d1.panFieldOffset.getD iF 0) s := by
    rw [hw0, hab, updateRecord_records_getD hlt1]
  have hfb2 : fieldBytes
      ((DBFWriteAttribute fmtF atofF d1 e iF (.str s)).2.records.getD e.toNat [])
      (d.panFieldOffset.getD iF 0) (d.panFieldSize.getD iF 0) =
      s ++ List.replicate (d.panFieldSize.getD iF 0 - s.length) ' ' := by
    rw [hrec2, hoff1]
    exact fieldBytes_memset_copy (by rw [hreclen]; exact hoffsz) hfit
  have hn2 : e <
      ((DBFWriteAttribute fmtF atofF d1 e iF (.str s)).2.nRecords : Int) := by
    rw [hw0, hab, updateRecord_nRecords]
    exact hn1
  have hp1 : (DBFWriteAttribute fmtF atofF d1 e iF (.str s)).2.panFieldOffset =
      d.panFieldOffset := by
    rw [hw0, hab, updateRecord_panFieldOffset, hoff1]
  have hp2 : (DBFWriteAttribute fmtF atofF d1 e iF (.str s)).2.panFieldSize =
      d.panFieldSize := by
    rw [hw0, hab, updateRecord_panFieldSize, hsz1]
  have hp3 : (DBFWriteAttribute fmtF atofF d1 e iF (.str s)).2.pachFieldType =
      d.pachFieldType := by
    rw [hw0, hab, updateRecord_pachFieldType, hty1]
  have hp4 : (DBFWriteAttribute fmtF atofF d1 e iF (.str s)).2.nFields =
      d.nFields := by
    rw [hw0, hab, updateRecord_nFields, hnf1]
  rw [isAttributeNULL_eval true he0 hn2 (by positivity)
    (by rw [hp4]; exact_mod_cast hiF)]
  rw [if_pos rfl]
  rw [show ((iF : Int)).toNat = iF from by simp]
  rw [hp1, hp2, hp3, hfb2]
  rw [cstr_of_no_nul (by
    intro x hx
    rcases List.mem_append.1 hx with h | h
    · exact hnul x h
    · rw [List.eq_of_mem_replicate h]
      decide)]
  apply isValueNULL_str_false ht2 ht3 ht1 ht4
  intro htrim
  rcases hwit with ⟨c, hcs, hcsp⟩
  exact hcsp (trimSpaces_eq_nil_iff.1 htrim c (List.mem_append.2 (Or.inl hcs)))

/-- After a NULL write, writing a valid not-all-zero date into a width-8
date field makes it non-NULL. -/
theorem null_then_date (d : DBFInfo) (hWF : DBFWF d) (e : Int) (iF : Nat)
    (he0 : 0 ≤ e) (he1 : e ≤ (d.nRecords : Int)) (hiF : iF < d.nFields)
    (fmtF : Nat → Nat → Int → List Char) (atofF : List Char → Int)
    (y m dd : Int)
    (hty : d.pachFieldType.getD iF ' ' = 'D')
    (hsz8 : d.panFieldSize.getD iF 0 = 8)
    (hy0 : 0 ≤ y) (hy1 : y ≤ 9999) (hm0 : 0 ≤ m) (hm1 : m ≤ 99)
    (hd0 : 0 ≤ dd) (hd1 : dd ≤ 99) (hnz : ¬(y = 0 ∧ m = 0 ∧ dd = 0)) :
    DBFIsAttributeNULL true
      (DBFWriteDateAttribute (DBFWriteNULLAttribute fmtF atofF d e iF).2 e
        (iF : Int) y m dd).2 e (iF : Int) = false := by
  obtain ⟨-, hWF1, hnf1, hoff1, hsz1, hty1, hdec1, hrl1, hn1, hfb1, -⟩ :=
    null_write_pack d hWF e iF he0 he1 hiF fmtF atofF
  set d1 := (DBFWriteNULLAttribute fmtF atofF d e iF).2 with hd1
  have hoffsz : d.panFieldOffset.getD iF 0 + d.panFieldSize.getD iF 0 ≤
      d.nRecordLength := hWF.offset_size_le hiF
  have hdate : DBFWriteDateAttribute d1 e (iF : Int) y m dd =
      DBFWriteAttributeDirectly d1 e (iF : Int)
        (fmtDate y.toNat m.toNat dd.toNat) := by
    unfold DBFWriteDateAttribute
    rw [if_neg (by omega), if_neg (by omega), if_neg (by omega)]
  have hlen8 : (fmtDate y.toNat m.toNat dd.toNat).length = 8 := rfl
  have hw0 := @writeDirectly_fits_eq d1 e (iF : Int)
    (fmtDate y.toNat m.toNat dd.toNat) (by omega) (by positivity)
    (by
      rw [show ((iF : Int)).toNat = iF from by simp, hsz1, hsz8, hlen8]
      omega)
  rw [show ((iF : Int)).toNat = iF from by simp] at hw0
  rw [hsz1] at hw0
  have hab : appendBlankIfNew d1 e = d1 := appendBlank_of_lt hn1
  have hlt1 : e.toNat < d1.records.length := by
    rw [hWF1.len_records]
    omega
  have hreclen : (d1.records.getD e.toNat []).length = d.nRecordLength := by
    rw [hWF1.record_len_getD hlt1, hrl1]
  have hrec2 : (DBFWriteDateAttribute d1 e (iF : Int) y m dd).2.records.getD
      e.toNat [] =
      setBytes (setBytes (d1.records.getD e.toNat [])
        (d1.panFieldOffset.getD iF 0)
        (List.replicate (d.panFieldSize.getD iF 0) ' '))
        (d1.panFieldOffset.getD iF 0) (fmtDate y.toNat m.toNat dd.toNat) := by
    rw [hdate, hw0, hab, updateRecord_records_getD hlt1]
  have hfb2 : fieldBytes
      ((DBFWriteDateAttribute d1 e (iF : Int) y m dd).2.records.getD e.toNat [])
      (d.panFieldOffset.getD iF 0) (d.panFieldSize.getD iF 0) =
      fmtDate y.toNat m.toNat dd.toNat := by
    rw [hrec2, hoff1]
    rw [fieldBytes_memset_copy (by rw [hreclen]; exact hoffsz)
      (by rw [hsz8, hlen8])]
    rw [hlen8, hsz8]
    simp
  have hn2 : e <
      ((DBFWriteDateAttribute d1 e (iF : Int) y m dd).2.nRecords : Int) := by
    rw [hdate, hw0, hab, updateRecord_nRecords]
    exact hn1
  have hp1 : (DBFWriteDateAttribute d1 e (iF : Int) y m dd).2.panFieldOffset =
      d.panFieldOffset := by
    rw [hdate, hw0, hab, updateRecord_panFieldOffset, hoff1]
  have hp2 : (DBFWriteDateAttribute d1 e (iF : Int) y m dd).2.panFieldSize =
      d.panFieldSize := by
    rw [hdate, hw0, hab, updateRecord_panFieldSize, hsz1]
  have hp3 : (DBFWriteDateAttribute d1 e (iF : Int) y m dd).2.pachFieldType =
      d.pachFieldType := by
    rw [hdate, hw0, hab, updateRecord_pachFieldType, hty1]
  have hp4 : (DBFWriteDateAttribute d1 e (iF : Int) y m dd).2.nFields =
      d.nFields := by
    rw [hdate, hw0, hab, updateRecord_nFields, hnf1]
  rw [isAttributeNULL_eval true he0 hn2 (by positivity)
    (by rw [hp4]; exact_mod_cast hiF)]
  rw [if_pos rfl]
  rw [show ((iF : Int)).toNat = iF from by simp]
  rw [hp1, hp2, hp3, hfb2, hty, hsz8]
  have hdig := fmtDate_all_digit y.toNat m.toNat dd.toNat
  rw [cstr_of_no_nul (fun c hc => isDigit_ne_nul (hdig c hc))]
  rw [trimSpaces_of_no_space (fun c hc => isDigit_ne_space (hdig c hc))]
  exact isValueNULL_D_false hlen8 (fun c hc => isDigit_ne_nul (hdig c hc))
    (fmtDate_ne_zeros (by omega) (by omega) (by omega)
      (by
        rintro ⟨h1, h2, h3⟩
        exact hnz ⟨by omega, by omega, by omega⟩))

/-- After a NULL write, an integer write (through the modelled `%f`
formatter) makes a numeric field non-NULL, whatever the integer. -/
theorem null_then_integer (d : DBFInfo) (hWF : DBFWF d) (e : Int) (iF : Nat)
    (he0 : 0 ≤ e) (he1 : e ≤ (d.nRecords : Int)) (hiF : iF < d.nFields)
    (atofF : List Char → Int) (n : Int)
    (hty : d.pachFieldType.getD iF ' ' = 'N' ∨
      d.pachFieldType.getD iF ' ' = 'F') :
    DBFIsAttributeNULL true
      (DBFWriteIntegerAttribute snprintfFModel atofF
        (DBFWriteNULLAttribute snprintfFModel atofF d e iF).2 e iF n).2 e
      (iF : Int) = false := by
  obtain ⟨-, hWF1, hnf1, hoff1, hsz1, hty1, hdec1, hrl1, hn1, hfb1, -⟩ :=
    null_write_pack d hWF e iF he0 he1 hiF snprintfFModel atofF
  set d1 := (DBFWriteNULLAttribute snprintfFModel atofF d e iF).2 with hd1
  have hszp : 1 ≤ d.panFieldSize.getD iF 0 := hWF.size_getD hiF
  have hoffsz : d.panFieldOffset.getD iF 0 + d.panFieldSize.getD iF 0 ≤
      d.nRecordLength := hWF.offset_size_le hiF
  have hfill : DBFGetNullCharacter (d.pachFieldType.getD iF ' ') = '*' := by
    unfold DBFGetNullCharacter
    rw [if_pos hty]
  have hab : appendBlankIfNew d1 e = d1 := appendBlank_of_lt hn1
  have hlt1 : e.toNat < d1.records.length := by
    rw [hWF1.len_records]
    omega
  have hreclen : (d1.records.getD e.toNat []).length = d.nRecordLength := by
    rw [hWF1.record_len_getD hlt1, hrl1]
  have hw0 := @writeAttribute_num_eq snprintfFModel atofF d1 e iF n (by omega)
    (by
      rw [hty1]
      rcases hty with h | h
      · exact Or.inr (Or.inl h)
      · exact Or.inr (Or.inr h))
  rw [hsz1, hdec1, hoff1] at hw0
  unfold DBFWriteIntegerAttribute
  have hns := @numeric_store_not_null (d.pachFieldType.getD iF ' ') hty
    (d.panFieldSize.getD iF 0) (d.panFieldDecimals.getD iF 0) hszp n
  have main : ∀ stored : List Char,
      (DBFWriteAttribute snprintfFModel atofF d1 e iF (.dbl n)).2 =
        updateRecord (appendBlankIfNew d1 e) e.toNat (fun r =>
          setBytes r (d.panFieldOffset.getD iF 0) stored) →
      stored.length ≤ d.panFieldSize.getD iF 0 →
      DBFIsValueNULL (d.pachFieldType.getD iF ' ')
        (trimSpaces (cstr (stored ++ List.replicate
          (d.panFieldSize.getD iF 0 - stored.length) '*')))
        (d.panFieldSize.getD iF 0) = false →
      DBFIsAttributeNULL true
        (DBFWriteAttribute snprintfFModel atofF d1 e iF (.dbl n)).2 e
        (iF : Int) = false := by
    intro stored hst hstlen hval
    rw [hab] at hst
    have hrec2 : (DBFWriteAttribute snprintfFModel atofF d1 e iF
        (.dbl n)).2.records.getD e.toNat [] =
        setBytes (d1.records.getD e.toNat [])
          (d.panFieldOffset.getD iF 0) stored := by
      rw [hst, updateRecord_records_getD hlt1]
    have hfb2 : fieldBytes
        ((DBFWriteAttribute snprintfFModel atofF d1 e iF
          (.dbl n)).2.records.getD e.toNat [])
        (d.panFieldOffset.getD iF 0) (d.panFieldSize.getD iF 0) =
        stored ++ List.replicate
          (d.panFieldSize.getD iF 0 - stored.length) '*' := by
      rw [hrec2, fieldBytes_setBytes (by rw [hreclen]; exact hoffsz) hstlen,
        hfb1, hfill, List.drop_replicate]
    have hn2 : e < ((DBFWriteAttribute snprintfFModel atofF d1 e iF
        (.dbl n)).2.nRecords : Int) := by
      rw [hst, updateRecord_nRecords]
      exact hn1
    have hp1 : (DBFWriteAttribute snprintfFModel atofF d1 e iF
        (.dbl n)).2.panFieldOffset = d.panFieldOffset := by
      rw [hst, updateRecord_panFieldOffset, hoff1]
    have hp2 : (DBFWriteAttribute snprintfFModel atofF d1 e iF
        (.dbl n)).2.panFieldSize = d.panFieldSize := by
      rw [hst, updateRecord_panFieldSize, hsz1]
    have hp3 : (DBFWriteAttribute snprintfFModel atofF d1 e iF
        (.dbl n)).2.pachFieldType = d.pachFieldType := by
      rw [hst, updateRecord_pachFieldType, hty1]
    have hp4 : (DBFWriteAttribute snprintfFModel atofF d1 e iF
        (.dbl n)).2.nFields = d.nFields := by
      rw [hst, updateRecord_nFields, hnf1]
    rw [isAttributeNULL_eval true he0 hn2 (by positivity)
      (by rw [hp4]; exact_mod_cast hiF)]
    rw [if_pos rfl]
    rw [show ((iF : Int)).toNat = iF from by simp]
    rw [hp1, hp2, hp3, hfb2]
    exact hval
  by_cases hcase : d.panFieldSize.getD iF 0 <
      ((snprintfFModel (if XBASE_FLD_MAX_WIDTH + 1 - 2 < d.panFieldSize.getD iF 0
        then XBASE_FLD_MAX_WIDTH + 1 - 2 else d.panFieldSize.getD iF 0)
        (d.panFieldDecimals.getD iF 0) n).take XBASE_FLD_MAX_WIDTH).length
  · rw [if_pos hcase] at hw0 hns
    exact main _ (congrArg Prod.snd hw0) hns.1 hns.2
  · rw [if_neg hcase] at hw0 hns
    exact main _ (congrArg Prod.snd hw0) hns.1 hns.2

/-- **C1** — For every well-formed table and every valid field index,
writing NULL (`DBFWriteNULLAttribute`, which fills the field's bytes with
the per-type null sentinel: `'*'` for N/F, `'0'` for D, `'?'` for L, `' '`
otherwise — `DBFGetNullCharacter`) and then querying the same record and
field with `DBFIsAttributeNULL` returns true; writing NULL followed by a
non-null value — a valid `'T'`/`'F'` logical byte, a string containing a
non-space byte, a valid not-all-zero date into a width-8 date field, or
any integer into an N/F field — makes `DBFIsAttributeNULL` return false.
String reads trim whitespace (`TRIM_DBF_WHITESPACE`, the upstream build
default, modelled from the spec since `shapefil.h` is not under src/). -/
theorem claim_C1 (d : DBFInfo) (hWF : DBFWF d) (e : Int) (iF : Nat)
    (he0 : 0 ≤ e) (he1 : e ≤ (d.nRecords : Int)) (hiF : iF < d.nFields)
    (fmtF : Nat → Nat → Int → List Char) (atofF : List Char → Int) :
    ((DBFWriteNULLAttribute fmtF atofF d e iF).1 = true ∧
     DBFIsAttributeNULL true (DBFWriteNULLAttribute fmtF atofF d e iF).2 e
       (iF : Int) = true) ∧
    (∀ c : Char, d.pachFieldType.getD iF ' ' = 'L' → (c = 'F' ∨ c = 'T') →
      DBFIsAttributeNULL true
        (DBFWriteLogicalAttribute fmtF atofF
          (DBFWriteNULLAttribute fmtF atofF d e iF).2 e iF c).2 e (iF : Int) =
        false) ∧
    (∀ s : List Char, d.pachFieldType.getD iF ' ' ≠ 'D' →
      d.pachFieldType.getD iF ' ' ≠ 'N' → d.pachFieldType.getD iF ' ' ≠ 'F' →
      d.pachFieldType.getD iF ' ' ≠ 'L' →
      s.length ≤ d.panFieldSize.getD iF 0 → (∀ c ∈ s, c ≠ '\x00') →
      (∃ c ∈ s, c ≠ ' ') →
      DBFIsAttributeNULL true
        (DBFWriteStringAttribute fmtF atofF
          (DBFWriteNULLAttribute fmtF atofF d e iF).2 e iF s).2 e (iF : Int) =
        false) ∧
    (∀ y m dd : Int, d.pachFieldType.getD iF ' ' = 'D' →
      d.panFieldSize.getD iF 0 = 8 →
      0 ≤ y → y ≤ 9999 → 0 ≤ m → m ≤ 99 → 0 ≤ dd → dd ≤ 99 →
      ¬(y = 0 ∧ m = 0 ∧ dd = 0) →
      DBFIsAttributeNULL true
        (DBFWriteDateAttribute (DBFWriteNULLAttribute fmtF atofF d e iF).2 e
          (iF : Int) y m dd).2 e (iF : Int) = false) ∧
    (∀ n : Int, (d.pachFieldType.getD iF ' ' = 'N' ∨
        d.pachFieldType.getD iF ' ' = 'F') →
      DBFIsAttributeNULL true
        (DBFWriteIntegerAttribute snprintfFModel atofF
          (DBFWriteNULLAttribute snprintfFModel atofF d e iF).2 e iF n).2 e
        (iF : Int) = false) := by
  obtain ⟨hok, -, -, -, -, -, -, -, -, -, hnull⟩ :=
    null_write_pack d hWF e iF he0 he1 hiF fmtF atofF
  refine ⟨⟨hok, hnull⟩, ?_, ?_, ?_, ?_⟩
  · intro c hty hc
    exact null_then_logical d hWF e iF he0 he1 hiF fmtF atofF c hty hc
  · intro s h1 h2 h3 h4 hfit hnul hwit
    exact null_then_string d hWF e iF he0 he1 hiF fmtF atofF s h1 h2 h3 h4 hfit
      hnul hwit
  · intro y m dd hty hsz8 hy0 hy1 hm0 hm1 hd0 hd1 hnz
    exact null_then_date d hWF e iF he0 he1 hiF fmtF atofF y m dd hty hsz8 hy0
      hy1 hm0 hm1 hd0 hd1 hnz
  · intro n hty
    exact null_then_integer d hWF e iF he0 he1 hiF atofF n hty

/-- A concrete two-field table (N width 3, D width 8, one live record)
used by the claim witnesses. -/
theorem sampleTable_wf : DBFWF sampleTable :=
  ⟨rfl, rfl, rfl, rfl, rfl, by decide, by decide, by decide, by decide⟩

/-- Witness for C1: the concrete table, record 0, the numeric field 0. -/
theorem claim_C1_witness :
    DBFWF sampleTable ∧ (0 : Int) ≤ (0 : Int) ∧
    (0 : Int) ≤ (sampleTable.nRecords : Int) ∧ (0 : Nat) < sampleTable.nFields ∧
    (((DBFWriteNULLAttribute snprintfFModel digitsVal sampleTable 0 0).1 = true ∧
      DBFIsAttributeNULL true
        (DBFWriteNULLAttribute snprintfFModel digitsVal sampleTable 0 0).2 0
        ((0 : Nat) : Int) = true) ∧
     (∀ c : Char, sampleTable.pachFieldType.getD 0 ' ' = 'L' →
        (c = 'F' ∨ c = 'T') →
        DBFIsAttributeNULL true
          (DBFWriteLogicalAttribute snprintfFModel digitsVal
            (DBFWriteNULLAttribute snprintfFModel digitsVal sampleTable 0 0).2
            0 0 c).2 0 ((0 : Nat) : Int) = false) ∧
     (∀ s : List Char, sampleTable.pachFieldType.getD 0 ' ' ≠ 'D' →
        sampleTable.pachFieldType.getD 0 ' ' ≠ 'N' →
        sampleTable.pachFieldType.getD 0 ' ' ≠ 'F' →
        sampleTable.pachFieldType.getD 0 ' ' ≠ 'L' →
        s.length ≤ sampleTable.panFieldSize.getD 0 0 → (∀ c ∈ s, c ≠ '\x00') →
        (∃ c ∈ s, c ≠ ' ') →
        DBFIsAttributeNULL true
          (DBFWriteStringAttribute snprintfFModel digitsVal
            (DBFWriteNULLAttribute snprintfFModel digitsVal sampleTable 0 0).2
            0 0 s).2 0 ((0 : Nat) : Int) = false) ∧
     (∀ y m dd : Int, sampleTable.pachFieldType.getD 0 ' ' = 'D' →
        sampleTable.panFieldSize.getD 0 0 = 8 →
        0 ≤ y → y ≤ 9999 → 0 ≤ m → m ≤ 99 → 0 ≤ dd → dd ≤ 99 →
        ¬(y = 0 ∧ m = 0 ∧ dd = 0) →
        DBFIsAttributeNULL true
          (DBFWriteDateAttribute
            (DBFWriteNULLAttribute snprintfFModel digitsVal sampleTable 0 0).2
            0 ((0 : Nat) : Int) y m dd).2 0 ((0 : Nat) : Int) = false) ∧
     (∀ n : Int, (sampleTable.pachFieldType.getD 0 ' ' = 'N' ∨
          sampleTable.pachFieldType.getD 0 ' ' = 'F') →
        DBFIsAttributeNULL true
          (DBFWriteIntegerAttribute snprintfFModel digitsVal
            (DBFWriteNULLAttribute snprintfFModel digitsVal sampleTable 0 0).2
            0 0 n).2 0 ((0 : Nat) : Int) = false)) :=
  ⟨sampleTable_wf, le_refl _, by decide, by decide,
   claim_C1 sampleTable sampleTable_wf 0 0 (le_refl _) (by decide) (by decide)
     snprintfFModel digitsVal⟩

/-- **C2** — For every numeric (N/F/D) write whose formatted string
(`"%*.*f"` at the computed width, cut to the 255 content bytes of
`szSField`) is longer than the field width, the stored field bytes are the
formatted string truncated to the field width, and the operation succeeds
iff re-parsing the truncated string with the hooks' `Atof` yields the
input value back; if the formatted string fits, the operation succeeds and
the bytes are laid down without padding the remainder.  Quantified over
every formatter and `Atof` collaborator. -/
theorem claim_C2 (d : DBFInfo) (hWF : DBFWF d) (e : Int) (iF : Nat)
    (he0 : 0 ≤ e) (he1 : e ≤ (d.nRecords : Int)) (hiF : iF < d.nFields)
    (hty : d.pachFieldType.getD iF ' ' = 'D' ∨
      d.pachFieldType.getD iF ' ' = 'N' ∨ d.pachFieldType.getD iF ' ' = 'F')
    (fmtF : Nat → Nat → Int → List Char) (atofF : List Char → Int) (x : Int) :
    (d.panFieldSize.getD iF 0 <
        ((fmtF (if XBASE_FLD_MAX_WIDTH + 1 - 2 < d.panFieldSize.getD iF 0
            then XBASE_FLD_MAX_WIDTH + 1 - 2 else d.panFieldSize.getD iF 0)
          (d.panFieldDecimals.getD iF 0) x).take XBASE_FLD_MAX_WIDTH).length →
      fieldBytes
        ((DBFWriteAttribute fmtF atofF d e iF (.dbl x)).2.records.getD
          e.toNat [])
        (d.panFieldOffset.getD iF 0) (d.panFieldSize.getD iF 0) =
        ((fmtF (if XBASE_FLD_MAX_WIDTH + 1 - 2 < d.panFieldSize.getD iF 0
            then XBASE_FLD_MAX_WIDTH + 1 - 2 else d.panFieldSize.getD iF 0)
          (d.panFieldDecimals.getD iF 0) x).take XBASE_FLD_MAX_WIDTH).take
          (d.panFieldSize.getD iF 0) ∧
      ((DBFWriteAttribute fmtF atofF d e iF (.dbl x)).1 = true ↔
        atofF (((fmtF (if XBASE_FLD_MAX_WIDTH + 1 - 2 < d.panFieldSize.getD iF 0
            then XBASE_FLD_MAX_WIDTH + 1 - 2 else d.panFieldSize.getD iF 0)
          (d.panFieldDecimals.getD iF 0) x).take XBASE_FLD_MAX_WIDTH).take
          (d.panFieldSize.getD iF 0)) = x)) ∧
    (((fmtF (if XBASE_FLD_MAX_WIDTH + 1 - 2 < d.panFieldSize.getD iF 0
        then XBASE_FLD_MAX_WIDTH + 1 - 2 else d.panFieldSize.getD iF 0)
      (d.panFieldDecimals.getD iF 0) x).take XBASE_FLD_MAX_WIDTH).length ≤
        d.panFieldSize.getD iF 0 →
      (DBFWriteAttribute fmtF atofF d e iF (.dbl x)).1 = true ∧
      fieldBytes
        ((DBFWriteAttribute fmtF atofF d e iF (.dbl x)).2.records.getD
          e.toNat [])
        (d.panFieldOffset.getD iF 0) (d.panFieldSize.getD iF 0) =
        ((fmtF (if XBASE_FLD_MAX_WIDTH + 1 - 2 < d.panFieldSize.getD iF 0
            then XBASE_FLD_MAX_WIDTH + 1 - 2 else d.panFieldSize.getD iF 0)
          (d.panFieldDecimals.getD iF 0) x).take XBASE_FLD_MAX_WIDTH) ++
        (fieldBytes ((appendBlankIfNew d e).records.getD e.toNat [])
          (d.panFieldOffset.getD iF 0) (d.panFieldSize.getD iF 0)).drop
          ((fmtF (if XBASE_FLD_MAX_WIDTH + 1 - 2 < d.panFieldSize.getD iF 0
              then XBASE_FLD_MAX_WIDTH + 1 - 2 else d.panFieldSize.getD iF 0)
            (d.panFieldDecimals.getD iF 0) x).take XBASE_FLD_MAX_WIDTH).length) := by
  have hguard : ¬(e < 0 ∨ (d.nRecords : Int) < e) := by omega
  have hoffsz : d.panFieldOffset.getD iF 0 + d.panFieldSize.getD iF 0 ≤
      d.nRecordLength := hWF.offset_size_le hiF
  obtain ⟨hlt, hlen⟩ := appendBlank_records_len hWF he0 he1
  have hw0 := @writeAttribute_num_eq fmtF atofF d e iF x hguard hty
  constructor
  · intro hcase
    rw [if_pos hcase] at hw0
    have htklen : (((fmtF (if XBASE_FLD_MAX_WIDTH + 1 - 2 <
        d.panFieldSize.getD iF 0 then XBASE_FLD_MAX_WIDTH + 1 - 2
        else d.panFieldSize.getD iF 0) (d.panFieldDecimals.getD iF 0) x).take
        XBASE_FLD_MAX_WIDTH).take (d.panFieldSize.getD iF 0)).length =
        d.panFieldSize.getD iF 0 := by
      rw [List.length_take]
      omega
    constructor
    · rw [hw0]
      rw [updateRecord_records_getD hlt,
        fieldBytes_setBytes (by rw [hlen]; exact hoffsz) (by rw [htklen]),
        htklen, List.drop_eq_nil_of_le
          (by rw [length_fieldBytes (by rw [hlen]; exact hoffsz)]),
        List.append_nil]
    · rw [hw0]
      simp
  · intro hcase
    rw [if_neg (by omega)] at hw0
    refine ⟨by rw [hw0], ?_⟩
    rw [hw0, updateRecord_records_getD hlt,
      fieldBytes_setBytes (by rw [hlen]; exact hoffsz) hcase]

/-- Witness for C2: the modelled formatter, `digitsVal` as `Atof`, value
12345 against the width-3 numeric field of the sample table (truncation),
with the hypotheses discharged at the concrete instance. -/
theorem claim_C2_witness :
    DBFWF sampleTable ∧ (0 : Int) ≤ (0 : Int) ∧
    (0 : Int) ≤ (sampleTable.nRecords : Int) ∧ (0 : Nat) < sampleTable.nFields ∧
    (sampleTable.pachFieldType.getD 0 ' ' = 'D' ∨
      sampleTable.pachFieldType.getD 0 ' ' = 'N' ∨
      sampleTable.pachFieldType.getD 0 ' ' = 'F') ∧
    ((sampleTable.panFieldSize.getD 0 0 <
        ((snprintfFModel (if XBASE_FLD_MAX_WIDTH + 1 - 2 <
            sampleTable.panFieldSize.getD 0 0
            then XBASE_FLD_MAX_WIDTH + 1 - 2
            else sampleTable.panFieldSize.getD 0 0)
          (sampleTable.panFieldDecimals.getD 0 0) 12345).take
          XBASE_FLD_MAX_WIDTH).length →
      fieldBytes
        ((DBFWriteAttribute snprintfFModel digitsVal sampleTable 0 0
          (.dbl 12345)).2.records.getD ((0 : Int)).toNat [])
        (sampleTable.panFieldOffset.getD 0 0) (sampleTable.panFieldSize.getD 0 0) =
        ((snprintfFModel (if XBASE_FLD_MAX_WIDTH + 1 - 2 <
            sampleTable.panFieldSize.getD 0 0
            then XBASE_FLD_MAX_WIDTH + 1 - 2
            else sampleTable.panFieldSize.getD 0 0)
          (sampleTable.panFieldDecimals.getD 0 0) 12345).take
          XBASE_FLD_MAX_WIDTH).take (sampleTable.panFieldSize.getD 0 0) ∧
      ((DBFWriteAttribute snprintfFModel digitsVal sampleTable 0 0
          (.dbl 12345)).1 = true ↔
        digitsVal (((snprintfFModel (if XBASE_FLD_MAX_WIDTH + 1 - 2 <
            sampleTable.panFieldSize.getD 0 0
            then XBASE_FLD_MAX_WIDTH + 1 - 2
            else sampleTable.panFieldSize.getD 0 0)
          (sampleTable.panFieldDecimals.getD 0 0) 12345).take
          XBASE_FLD_MAX_WIDTH).take (sampleTable.panFieldSize.getD 0 0)) =
          12345)) ∧
     (((snprintfFModel (if XBASE_FLD_MAX_WIDTH + 1 - 2 <
          sampleTable.panFieldSize.getD 0 0
          then XBASE_FLD_MAX_WIDTH + 1 - 2
          else sampleTable.panFieldSize.getD 0 0)
        (sampleTable.panFieldDecimals.getD 0 0) 12345).take
        XBASE_FLD_MAX_WIDTH).length ≤ sampleTable.panFieldSize.getD 0 0 →
      (DBFWriteAttribute snprintfFModel digitsVal sampleTable 0 0
        (.dbl 12345)).1 = true ∧
      fieldBytes
        ((DBFWriteAttribute snprintfFModel digitsVal sampleTable 0 0
          (.dbl 12345)).2.records.getD ((0 : Int)).toNat [])
        (sampleTable.panFieldOffset.getD 0 0) (sampleTable.panFieldSize.getD 0 0) =
        ((snprintfFModel (if XBASE_FLD_MAX_WIDTH + 1 - 2 <
            sampleTable.panFieldSize.getD 0 0
            then XBASE_FLD_MAX_WIDTH + 1 - 2
            else sampleTable.panFieldSize.getD 0 0)
          (sampleTable.panFieldDecimals.getD 0 0) 12345).take
          XBASE_FLD_MAX_WIDTH) ++
        (fieldBytes ((appendBlankIfNew sampleTable 0).records.getD
            ((0 : Int)).toNat [])
          (sampleTable.panFieldOffset.getD 0 0)
          (sampleTable.panFieldSize.getD 0 0)).drop
          ((snprintfFModel (if XBASE_FLD_MAX_WIDTH + 1 - 2 <
              sampleTable.panFieldSize.getD 0 0
              then XBASE_FLD_MAX_WIDTH + 1 - 2
              else sampleTable.panFieldSize.getD 0 0)
            (sampleTable.panFieldDecimals.getD 0 0) 12345).take
            XBASE_FLD_MAX_WIDTH).length)) :=
  ⟨sampleTable_wf, le_refl _, by decide, by decide, by decide,
   claim_C2 sampleTable sampleTable_wf 0 0 (le_refl _) (by decide) (by decide)
     (by decide) snprintfFModel digitsVal 12345⟩

/-- **C5** — For every logical (`'L'`) field, `DBFWriteLogicalAttribute`
with a byte other than `'T'`/`'F'` returns failure and leaves the records
untouched (in particular an in-range write leaves the whole handle
unchanged); with `'T'` or `'F'` it stores that single byte at the field's
offset and returns success. -/
theorem claim_C5 (d : DBFInfo) (hWF : DBFWF d) (e : Int) (iF : Nat)
    (he0 : 0 ≤ e) (he1 : e ≤ (d.nRecords : Int)) (hiF : iF < d.nFields)
    (hty : d.pachFieldType.getD iF ' ' = 'L')
    (fmtF : Nat → Nat → Int → List Char) (atofF : List Char → Int) (c : Char) :
    (¬(c = 'F' ∨ c = 'T') →
      (DBFWriteLogicalAttribute fmtF atofF d e iF c).1 = false ∧
      (DBFWriteLogicalAttribute fmtF atofF d e iF c).2.records =
        (appendBlankIfNew d e).records ∧
      (e < (d.nRecords : Int) →
        (DBFWriteLogicalAttribute fmtF atofF d e iF c).2 = d)) ∧
    ((c = 'F' ∨ c = 'T') →
      (DBFWriteLogicalAttribute fmtF atofF d e iF c).1 = true ∧
      fieldBytes
        ((DBFWriteLogicalAttribute fmtF atofF d e iF c).2.records.getD
          e.toNat [])
        (d.panFieldOffset.getD iF 0) (d.panFieldSize.getD iF 0) =
        c :: (fieldBytes ((appendBlankIfNew d e).records.getD e.toNat [])
          (d.panFieldOffset.getD iF 0) (d.panFieldSize.getD iF 0)).drop 1) := by
  have hguard : ¬(e < 0 ∨ (d.nRecords : Int) < e) := by omega
  have hszp : 1 ≤ d.panFieldSize.getD iF 0 := hWF.size_getD hiF
  have hoffsz : d.panFieldOffset.getD iF 0 + d.panFieldSize.getD iF 0 ≤
      d.nRecordLength := hWF.offset_size_le hiF
  obtain ⟨hlt, hlen⟩ := appendBlank_records_len hWF he0 he1
  constructor
  · intro hc
    have hw0 := @writeAttribute_logical_fail fmtF atofF d e iF c hguard hty hc
    refine ⟨by rw [hw0], by rw [hw0], ?_⟩
    intro hin
    rw [hw0, appendBlank_of_lt hin]
  · intro hc
    have hw0 := @writeAttribute_logical_ok fmtF atofF d e iF c hguard hty hszp hc
    refine ⟨by rw [hw0], ?_⟩
    rw [hw0, updateRecord_records_getD hlt,
      fieldBytes_setBytes (by rw [hlen]; exact hoffsz)
        (by rw [show ([c] : List Char).length = 1 from rfl]; exact hszp)]
    rfl

/-- A one-field logical table used by the C5 witness. -/
theorem sampleTableL_wf : DBFWF sampleTableL :=
  ⟨rfl, rfl, rfl, rfl, rfl, by decide, by decide, by decide, by decide⟩

/-- Witness for C5 at the one-field logical table with byte `'T'`. -/
theorem claim_C5_witness :
    DBFWF sampleTableL ∧ (0 : Int) ≤ (0 : Int) ∧
    (0 : Int) ≤ (sampleTableL.nRecords : Int) ∧
    (0 : Nat) < sampleTableL.nFields ∧
    sampleTableL.pachFieldType.getD 0 ' ' = 'L' ∧
    ((¬(('T' : Char) = 'F' ∨ ('T' : Char) = 'T') →
      (DBFWriteLogicalAttribute snprintfFModel digitsVal sampleTableL 0 0
        'T').1 = false ∧
      (DBFWriteLogicalAttribute snprintfFModel digitsVal sampleTableL 0 0
        'T').2.records = (appendBlankIfNew sampleTableL 0).records ∧
      ((0 : Int) < (sampleTableL.nRecords : Int) →
        (DBFWriteLogicalAttribute snprintfFModel digitsVal sampleTableL 0 0
          'T').2 = sampleTableL)) ∧
     ((('T' : Char) = 'F' ∨ ('T' : Char) = 'T') →
      (DBFWriteLogicalAttribute snprintfFModel digitsVal sampleTableL 0 0
        'T').1 = true ∧
      fieldBytes
        ((DBFWriteLogicalAttribute snprintfFModel digitsVal sampleTableL 0 0
          'T').2.records.getD ((0 : Int)).toNat [])
        (sampleTableL.panFieldOffset.getD 0 0)
        (sampleTableL.panFieldSize.getD 0 0) =
        'T' :: (fieldBytes ((appendBlankIfNew sampleTableL 0).records.getD
            ((0 : Int)).toNat [])
          (sampleTableL.panFieldOffset.getD 0 0)
          (sampleTableL.panFieldSize.getD 0 0)).drop 1)) :=
  ⟨sampleTableL_wf, le_refl _, by decide, by decide, rfl,
   claim_C5 sampleTableL sampleTableL_wf 0 0 (le_refl _) (by decide)
     (by decide) rfl snprintfFModel digitsVal 'T'⟩

theorem setBytes_length_pos {rec bytes : List Char} {off : Nat}
    (h : 1 ≤ rec.length) (_hoff : 1 ≤ off) :
    1 ≤ (setBytes rec off bytes).length := by
  unfold setBytes
  simp only [List.length_append, List.length_take, List.length_drop]
  omega

/-- Every value branch of `DBFWriteAttribute` writes only at the field
offset (which is at least 1), so the deletion-flag byte and the record
count it inherited from the append step are untouched. -/
theorem writeAttribute_shape (fmtF : Nat → Nat → Int → List Char)
    (atofF : List Char → Int) {d : DBFInfo} (hWF : DBFWF d)
    {e : Int} {iF : Nat} (v : DBFValue)
    (he0 : 0 ≤ e) (he1 : e ≤ (d.nRecords : Int)) (hiF : iF < d.nFields) :
    ((DBFWriteAttribute fmtF atofF d e iF v).2.records.getD e.toNat []).getD
      0 ' ' = ((appendBlankIfNew d e).records.getD e.toNat []).getD 0 ' ' ∧
    (DBFWriteAttribute fmtF atofF d e iF v).2.nRecords =
      (appendBlankIfNew d e).nRecords := by
  have hguard : ¬(e < 0 ∨ (d.nRecords : Int) < e) := by omega
  have hoffp : 1 ≤ d.panFieldOffset.getD iF 0 := hWF.offset_pos hiF
  obtain ⟨hlt, hlen⟩ := appendBlank_records_len hWF he0 he1
  have hrecpos : 1 ≤ ((appendBlankIfNew d e).records.getD e.toNat []).length := by
    rw [hlen, hWF.recLen_eq]
    omega
  cases v
  case null =>
    unfold DBFWriteAttribute
    rw [if_neg hguard]
    simp only [appendBlank_panFieldOffset, appendBlank_panFieldSize,
      appendBlank_pachFieldType, updateRecord_records_getD hlt,
      updateRecord_nRecords]
    exact ⟨setBytes_getD_zero _ hoffp hrecpos, trivial⟩
  case dbl x =>
    unfold DBFWriteAttribute
    rw [if_neg hguard]
    simp only [appendBlank_panFieldOffset, appendBlank_panFieldSize,
      appendBlank_pachFieldType, appendBlank_panFieldDecimals]
    split
    · split <;> split <;>
        simp only [updateRecord_records_getD hlt, updateRecord_nRecords] <;>
        exact ⟨setBytes_getD_zero _ hoffp hrecpos, trivial⟩
    · split
      · split
        · simp only [updateRecord_records_getD hlt, updateRecord_nRecords]
          exact ⟨setBytes_getD_zero _ hoffp hrecpos, trivial⟩
        · exact ⟨rfl, rfl⟩
      · split
        · simp only [updateRecord_records_getD hlt, updateRecord_nRecords]
          exact ⟨setBytes_getD_zero _ hoffp hrecpos, trivial⟩
        · simp only [updateRecord_records_getD hlt, updateRecord_nRecords]
          refine ⟨?_, trivial⟩
          rw [setBytes_getD_zero _ hoffp (setBytes_length_pos hrecpos hoffp)]
          exact setBytes_getD_zero _ hoffp hrecpos
  case logical c =>
    unfold DBFWriteAttribute
    rw [if_neg hguard]
    simp only [appendBlank_panFieldOffset, appendBlank_panFieldSize,
      appendBlank_pachFieldType, appendBlank_panFieldDecimals]
    split
    · split <;> split <;>
        simp only [updateRecord_records_getD hlt, updateRecord_nRecords] <;>
        exact ⟨setBytes_getD_zero _ hoffp hrecpos, trivial⟩
    · split
      · split
        · simp only [updateRecord_records_getD hlt, updateRecord_nRecords]
          exact ⟨setBytes_getD_zero _ hoffp hrecpos, trivial⟩
        · exact ⟨rfl, rfl⟩
      · split
        · simp only [updateRecord_records_getD hlt, updateRecord_nRecords]
          exact ⟨setBytes_getD_zero _ hoffp hrecpos, trivial⟩
        · simp only [updateRecord_records_getD hlt, updateRecord_nRecords]
          refine ⟨?_, trivial⟩
          rw [setBytes_getD_zero _ hoffp (setBytes_length_pos hrecpos hoffp)]
          exact setBytes_getD_zero _ hoffp hrecpos
  case str s =>
    unfold DBFWriteAttribute
    rw [if_neg hguard]
    simp only [appendBlank_panFieldOffset, appendBlank_panFieldSize,
      appendBlank_pachFieldType, appendBlank_panFieldDecimals]
    split
    · split <;> split <;>
        simp only [updateRecord_records_getD hlt, updateRecord_nRecords] <;>
        exact ⟨setBytes_getD_zero _ hoffp hrecpos, trivial⟩
    · split
      · split
        · simp only [updateRecord_records_getD hlt, updateRecord_nRecords]
          exact ⟨setBytes_getD_zero _ hoffp hrecpos, trivial⟩
        · exact ⟨rfl, rfl⟩
      · split
        · simp only [updateRecord_records_getD hlt, updateRecord_nRecords]
          exact ⟨setBytes_getD_zero _ hoffp hrecpos, trivial⟩
        · simp only [updateRecord_records_getD hlt, updateRecord_nRecords]
          refine ⟨?_, trivial⟩
          rw [setBytes_getD_zero _ hoffp (setBytes_length_pos hrecpos hoffp)]
          exact setBytes_getD_zero _ hoffp hrecpos

theorem writeDirectly_shape {d : DBFInfo} (hWF : DBFWF d)
    {e : Int} {iF : Int} (bs : List Char)
    (he0 : 0 ≤ e) (he1 : e ≤ (d.nRecords : Int)) (hif0 : 0 ≤ iF)
    (hiF : iF.toNat < d.nFields) :
    ((DBFWriteAttributeDirectly d e iF bs).2.records.getD e.toNat []).getD
      0 ' ' = ((appendBlankIfNew d e).records.getD e.toNat []).getD 0 ' ' ∧
    (DBFWriteAttributeDirectly d e iF bs).2.nRecords =
      (appendBlankIfNew d e).nRecords := by
  have hguard : ¬(e < 0 ∨ (d.nRecords : Int) < e) := by omega
  have hoffp : 1 ≤ d.panFieldOffset.getD iF.toNat 0 := hWF.offset_pos hiF
  obtain ⟨hlt, hlen⟩ := appendBlank_records_len hWF he0 he1
  have hrecpos : 1 ≤ ((appendBlankIfNew d e).records.getD e.toNat []).length := by
    rw [hlen, hWF.recLen_eq]
    omega
  unfold DBFWriteAttributeDirectly
  rw [if_neg hguard]
  simp only [appendBlank_panFieldOffset, appendBlank_panFieldSize]
  rw [if_pos hif0]
  split
  · simp only [updateRecord_records_getD hlt, updateRecord_nRecords]
    exact ⟨setBytes_getD_zero _ hoffp hrecpos, trivial⟩
  · simp only [updateRecord_records_getD hlt, updateRecord_nRecords]
    refine ⟨?_, trivial⟩
    rw [setBytes_getD_zero _ hoffp (setBytes_length_pos hrecpos hoffp)]
    exact setBytes_getD_zero _ hoffp hrecpos

theorem tupleTable_wf : DBFWF tupleTable :=
  ⟨rfl, rfl, rfl, rfl, rfl, by decide, by decide, by decide, by decide⟩

/-- C4, counterexample: `DBFWriteTuple` to index `nRecords` appends a
record but then copies the raw tuple over the whole buffer, deletion flag
included, so the appended record's byte 0 is the tuple's byte 0 — here
`'*'`, not `' '`: the freshly appended record is already deleted. -/
theorem claim_C4_counterexample :
    (DBFWriteTuple tupleTable 0 ['*', 'x']).1 = true ∧
    (DBFWriteTuple tupleTable 0 ['*', 'x']).2.nRecords =
      tupleTable.nRecords + 1 ∧
    ((DBFWriteTuple tupleTable 0 ['*', 'x']).2.records.getD 0 []).getD 0 ' '
      = '*' ∧
    DBFIsRecordDeleted (DBFWriteTuple tupleTable 0 ['*', 'x']).2 0 = true := by
  decide

/-- C4 (amended): writing to record index `nRecords` appends a record and
the count becomes `n + 1` for all three entry points; for
`DBFWriteAttribute` (every value class) and `DBFWriteAttributeDirectly`
the appended record keeps the all-space initialisation at byte 0, so its
deletion flag is `' '` (live); `DBFWriteTuple`, however, copies the raw
tuple over the whole record, deletion flag included, so the appended
record is the tuple laid over the blank record.  A write to a negative
index or one strictly beyond `nRecords` fails and leaves the table
unchanged. -/
theorem claim_C4 (fmtF : Nat → Nat → Int → List Char)
    (atofF : List Char → Int) (d : DBFInfo) (hWF : DBFWF d) (iF : Nat)
    (hiF : iF < d.nFields) (v : DBFValue) (bs t : List Char) (e' : Int)
    (he' : e' < 0 ∨ (d.nRecords : Int) < e') :
    ((DBFWriteAttribute fmtF atofF d (d.nRecords : Int) iF v).2.nRecords =
        d.nRecords + 1 ∧
      ((DBFWriteAttribute fmtF atofF d (d.nRecords : Int) iF
          v).2.records.getD d.nRecords []).getD 0 ' ' = ' ') ∧
    ((DBFWriteAttributeDirectly d (d.nRecords : Int) (iF : Int)
          bs).2.nRecords = d.nRecords + 1 ∧
      ((DBFWriteAttributeDirectly d (d.nRecords : Int) (iF : Int)
          bs).2.records.getD d.nRecords []).getD 0 ' ' = ' ') ∧
    ((DBFWriteTuple d (d.nRecords : Int) t).2.nRecords = d.nRecords + 1 ∧
      (DBFWriteTuple d (d.nRecords : Int) t).2.records.getD d.nRecords [] =
        setBytes (List.replicate d.nRecordLength ' ') 0
          (t.take d.nRecordLength)) ∧
    DBFWriteAttribute fmtF atofF d e' iF v = (false, d) ∧
    DBFWriteAttributeDirectly d e' (iF : Int) bs = (false, d) ∧
    DBFWriteTuple d e' t = (false, d) := by
  have he0 : (0 : Int) ≤ (d.nRecords : Int) := Int.natCast_nonneg _
  have he1 : (d.nRecords : Int) ≤ (d.nRecords : Int) := le_refl _
  have hguard :
      ¬((d.nRecords : Int) < 0 ∨ (d.nRecords : Int) < (d.nRecords : Int)) := by
    omega
  have htn : ((d.nRecords : Int)).toNat = d.nRecords := Int.toNat_natCast _
  have hrecl : 1 ≤ d.nRecordLength := by rw [hWF.recLen_eq]; omega
  have hnrec :
      (appendBlankIfNew d (d.nRecords : Int)).nRecords = d.nRecords + 1 := by
    unfold appendBlankIfNew
    rw [if_pos rfl]
  have hnew := appendBlank_records_new hWF
  rw [htn] at hnew
  have hif0 : (0 : Int) ≤ (iF : Int) := Int.natCast_nonneg _
  have hiFtn : ((iF : Int)).toNat < d.nFields := by
    rw [Int.toNat_natCast]; exact hiF
  obtain ⟨hb1, hc1⟩ := writeAttribute_shape fmtF atofF hWF v he0 he1 hiF
  obtain ⟨hb2, hc2⟩ := writeDirectly_shape hWF bs he0 he1 hif0 hiFtn
  rw [htn] at hb1 hb2
  obtain ⟨hlt, -⟩ := appendBlank_records_len hWF he0 he1
  refine ⟨⟨?_, ?_⟩, ⟨?_, ?_⟩, ⟨?_, ?_⟩, ?_, ?_, ?_⟩
  · rw [hc1, hnrec]
  · rw [hb1, hnew, getD_replicate (by omega)]
  · rw [hc2, hnrec]
  · rw [hb2, hnew, getD_replicate (by omega)]
  · rw [writeTuple_eq t hguard]
    simp only [updateRecord_nRecords]
    exact hnrec
  · have hlt' : d.nRecords <
        (appendBlankIfNew d (d.nRecords : Int)).records.length := by
      rw [htn] at hlt; exact hlt
    rw [writeTuple_eq t hguard, htn]
    simp only [updateRecord_records_getD hlt']
    rw [hnew]
  · exact writeAttribute_out_of_range fmtF atofF v he'
  · exact writeDirectly_out_of_range bs he'
  · exact writeTuple_out_of_range t he'

/-- Witness for the amended C4 at the empty one-field table: append via
all three entry points, and the failing write at index `-1`. -/
theorem claim_C4_witness :
    (DBFWF tupleTable ∧ 0 < tupleTable.nFields ∧
      ((-1 : Int) < 0 ∨ (tupleTable.nRecords : Int) < -1)) ∧
    (((DBFWriteAttribute snprintfFModel digitsVal tupleTable
          (tupleTable.nRecords : Int) 0 (DBFValue.str ['a'])).2.nRecords =
        tupleTable.nRecords + 1 ∧
      ((DBFWriteAttribute snprintfFModel digitsVal tupleTable
          (tupleTable.nRecords : Int) 0
          (DBFValue.str ['a'])).2.records.getD tupleTable.nRecords []).getD
        0 ' ' = ' ') ∧
    ((DBFWriteAttributeDirectly tupleTable (tupleTable.nRecords : Int)
          ((0 : Nat) : Int) ['a']).2.nRecords = tupleTable.nRecords + 1 ∧
      ((DBFWriteAttributeDirectly tupleTable (tupleTable.nRecords : Int)
          ((0 : Nat) : Int) ['a']).2.records.getD
        tupleTable.nRecords []).getD 0 ' ' = ' ') ∧
    ((DBFWriteTuple tupleTable (tupleTable.nRecords : Int)
          ['*', 'x']).2.nRecords = tupleTable.nRecords + 1 ∧
      (DBFWriteTuple tupleTable (tupleTable.nRecords : Int)
          ['*', 'x']).2.records.getD tupleTable.nRecords [] =
        setBytes (List.replicate tupleTable.nRecordLength ' ') 0
          (List.take tupleTable.nRecordLength ['*', 'x'])) ∧
    DBFWriteAttribute snprintfFModel digitsVal tupleTable (-1) 0
        (DBFValue.str ['a']) = (false, tupleTable) ∧
    DBFWriteAttributeDirectly tupleTable (-1) ((0 : Nat) : Int) ['a'] =
      (false, tupleTable) ∧
    DBFWriteTuple tupleTable (-1) ['*', 'x'] = (false, tupleTable)) :=
  ⟨⟨tupleTable_wf, by decide, by decide⟩,
   claim_C4 snprintfFModel digitsVal tupleTable tupleTable_wf 0 (by decide)
     (DBFValue.str ['a']) ['a'] ['*', 'x'] (-1) (by decide)⟩

theorem readRaw_out_of_range {d : DBFInfo} {e iF : Int}
    (h : e < 0 ∨ (d.nRecords : Int) ≤ e ∨ iF < 0 ∨ (d.nFields : Int) ≤ iF) :
    DBFReadAttributeRaw d e iF = none := by
  unfold DBFReadAttributeRaw
  by_cases h1 : e < 0 ∨ (d.nRecords : Int) ≤ e
  · rw [if_pos h1]
  · rw [if_neg h1, if_pos (by omega)]

/-- C9: with the record index outside `[0, nRecords)` or the field index
outside `[0, nFields)`, `DBFReadIntegerAttribute` returns `0` and
`DBFReadDoubleAttribute` returns `0.0` (whatever `Atof` hook is
installed), so an out-of-range read is indistinguishable from a stored
zero at these interfaces. -/
theorem claim_C9 (d : DBFInfo) (atofF : List Char → ℚ) (e iF : Int)
    (h : e < 0 ∨ (d.nRecords : Int) ≤ e ∨ iF < 0 ∨ (d.nFields : Int) ≤ iF) :
    DBFReadIntegerAttribute d e iF = 0 ∧
    DBFReadDoubleAttribute atofF d e iF = 0 := by
  unfold DBFReadIntegerAttribute DBFReadDoubleAttribute
  rw [readRaw_out_of_range h]
  exact ⟨rfl, rfl⟩

/-- Witness for C9: record 5 of the empty one-field table. -/
theorem claim_C9_witness :
    ((5 : Int) < 0 ∨ (tupleTable.nRecords : Int) ≤ 5 ∨ (0 : Int) < 0 ∨
      (tupleTable.nFields : Int) ≤ 0) ∧
    (DBFReadIntegerAttribute tupleTable 5 0 = 0 ∧
     DBFReadDoubleAttribute (fun v => (digitsVal v : ℚ)) tupleTable 5 0 = 0) :=
  ⟨by decide,
   claim_C9 tupleTable (fun v => (digitsVal v : ℚ)) 5 0 (by decide)⟩

/-- C10: `DBFIsRecordDeleted` reports every out-of-range record index as
deleted (TRUE), and an in-range record as deleted exactly when its first
byte (the deletion flag) is `'*'`. -/
theorem claim_C10 (d : DBFInfo) (e : Int) :
    ((e < 0 ∨ (d.nRecords : Int) ≤ e) → DBFIsRecordDeleted d e = true) ∧
    (¬(e < 0 ∨ (d.nRecords : Int) ≤ e) →
      (DBFIsRecordDeleted d e = true ↔
        (d.records.getD e.toNat []).getD 0 ' ' = '*')) := by
  constructor
  · intro h
    unfold DBFIsRecordDeleted
    rw [if_pos h]
  · intro h
    unfold DBFIsRecordDeleted
    rw [if_neg h]
    simp

/-- Witness for C10: an out-of-range index of the empty table reads
deleted; record 0 of the live sample table reads deleted iff its flag
byte is `'*'`. -/
theorem claim_C10_witness :
    DBFIsRecordDeleted tupleTable 3 = true ∧
    (DBFIsRecordDeleted sampleTable 0 = true ↔
      (sampleTable.records.getD ((0 : Int)).toNat []).getD 0 ' ' = '*') :=
  ⟨(claim_C10 tupleTable 3).1 (by decide),
   (claim_C10 sampleTable 0).2 (by decide)⟩

/-- C7: `DBFAddNativeFieldType` fails on a width below 1, fails without
altering the schema when the grown header or the grown record would
exceed 65535 bytes, clamps a width above `XBASE_FLD_MAX_WIDTH` (255) to
255 before use, and on success returns the new field's zero-based index
(the old field count) while appending the clamped width. -/
theorem claim_C7 (d : DBFInfo) (hWF : DBFWF d) (chType : Char)
    (nWidth : Int) (nDec : Nat) :
    (nWidth < 1 → DBFAddNativeFieldType d chType nWidth nDec = (-1, d)) ∧
    (65535 < d.nHeaderLength + XBASE_FLDHDR_SZ →
      DBFAddNativeFieldType d chType nWidth nDec = (-1, d)) ∧
    (1 ≤ nWidth →
      65535 < d.nRecordLength + min XBASE_FLD_MAX_WIDTH nWidth.toNat →
      DBFAddNativeFieldType d chType nWidth nDec = (-1, d)) ∧
    (¬(65535 < d.nHeaderLength + XBASE_FLDHDR_SZ) → 1 ≤ nWidth →
      ¬(65535 < d.nRecordLength + min XBASE_FLD_MAX_WIDTH nWidth.toNat) →
      (DBFAddNativeFieldType d chType nWidth nDec).1 = (d.nFields : Int) ∧
      (DBFAddNativeFieldType d chType nWidth nDec).2.nFields =
        d.nFields + 1 ∧
      (DBFAddNativeFieldType d chType nWidth nDec).2.panFieldSize.getD
        d.nFields 0 = min XBASE_FLD_MAX_WIDTH nWidth.toNat ∧
      (DBFAddNativeFieldType d chType nWidth nDec).2.nRecordLength =
        d.nRecordLength + min XBASE_FLD_MAX_WIDTH nWidth.toNat) := by
  have hclamp : (if (XBASE_FLD_MAX_WIDTH : Int) < nWidth then
      XBASE_FLD_MAX_WIDTH else nWidth.toNat) =
      min XBASE_FLD_MAX_WIDTH nWidth.toNat := by
    unfold XBASE_FLD_MAX_WIDTH
    split <;> omega
  refine ⟨?_, ?_, ?_, ?_⟩
  · intro h
    unfold DBFAddNativeFieldType
    by_cases hh : 65535 < d.nHeaderLength + XBASE_FLDHDR_SZ
    · rw [if_pos hh]
    · rw [if_neg hh, if_pos h]
  · intro h
    unfold DBFAddNativeFieldType
    rw [if_pos h]
  · intro h1 h2
    unfold DBFAddNativeFieldType
    by_cases hh : 65535 < d.nHeaderLength + XBASE_FLDHDR_SZ
    · rw [if_pos hh]
    · rw [if_neg hh, if_neg (by omega)]
      simp only [hclamp]
      rw [if_pos h2]
  · intro h1 h2 h3
    unfold DBFAddNativeFieldType
    rw [if_neg h1, if_neg (by omega)]
    simp only [hclamp]
    rw [if_neg h3]
    refine ⟨rfl, rfl, ?_, rfl⟩
    rw [← hWF.len_size, List.getD_eq_getElem _ _ (by simp),
      List.getElem_append_right (le_refl _)]
    simp

/-- Witness for C7: a zero width fails on the empty one-field table; a
width of 300 succeeds there clamped to 255. -/
theorem claim_C7_witness :
    DBFAddNativeFieldType tupleTable 'C' 0 0 = (-1, tupleTable) ∧
    ((DBFAddNativeFieldType tupleTable 'C' 300 0).1 =
        (tupleTable.nFields : Int) ∧
      (DBFAddNativeFieldType tupleTable 'C' 300 0).2.nFields =
        tupleTable.nFields + 1 ∧
      (DBFAddNativeFieldType tupleTable 'C' 300 0).2.panFieldSize.getD
        tupleTable.nFields 0 = min XBASE_FLD_MAX_WIDTH ((300 : Int)).toNat ∧
      (DBFAddNativeFieldType tupleTable 'C' 300 0).2.nRecordLength =
        tupleTable.nRecordLength + min XBASE_FLD_MAX_WIDTH
          ((300 : Int)).toNat) :=
  ⟨(claim_C7 tupleTable tupleTable_wf 'C' 0 0).1 (by decide),
   (claim_C7 tupleTable tupleTable_wf 'C' 300 0).2.2.2 (by decide)
     (by decide) (by decide)⟩

/-- C6: `DBFOpenLL` yields no handle whenever the header fields it parsed
give `record_length = 0` or `header_length < XBASE_FILEHDR_SZ` (32); the
open path of the model is a pure parse of the file bytes, so a failed
open leaves the file untouched by construction. -/
theorem claim_C6 (file : List Nat)
    (h : file.getD 10 0 + 256 * file.getD 11 0 = 0 ∨
      file.getD 8 0 + 256 * file.getD 9 0 < XBASE_FILEHDR_SZ) :
    DBFOpenLL file = none := by
  unfold DBFOpenLL
  by_cases h1 : file.length < XBASE_FILEHDR_SZ
  · rw [if_pos h1]
  · rw [if_neg h1]
    simp only []
    rw [if_pos h]

/-- Witness for C6: a 32-byte all-zero header parses `record_length = 0`
and is rejected. -/
theorem claim_C6_witness :
    ((List.replicate 32 0 : List Nat).getD 10 0 +
        256 * (List.replicate 32 0 : List Nat).getD 11 0 = 0 ∨
      (List.replicate 32 0 : List Nat).getD 8 0 +
        256 * (List.replicate 32 0 : List Nat).getD 9 0 <
        XBASE_FILEHDR_SZ) ∧
    DBFOpenLL (List.replicate 32 0) = none :=
  ⟨by decide, claim_C6 (List.replicate 32 0) (by decide)⟩

/-- C8: loading a record on a cache miss sets `bRequireNextWriteSeek`, so
a write immediately after a read always seeks: the flush of a dirty
record opens with a seek to the record's offset whenever that flag is set
or the stream is elsewhere, and only when the flag is clear and the
stream already sits at the record's offset does it omit the seek
entirely. -/
theorem claim_C8 (s : DBFCacheState) (i : Int) :
    (s.nCurrentRecord ≠ i →
      (DBFLoadRecordM s i).2.bRequireNextWriteSeek = true) ∧
    (s.bCurrentRecordModified ∧ -1 < s.nCurrentRecord →
      ((s.bRequireNextWriteSeek ∨
          s.filePos ≠ recordOffsetOf s s.nCurrentRecord) →
        (DBFFlushRecordM s).1.head? =
          some (IOEvent.seekTo (recordOffsetOf s s.nCurrentRecord))) ∧
      (¬(s.bRequireNextWriteSeek ∨
          s.filePos ≠ recordOffsetOf s s.nCurrentRecord) →
        ∀ p, IOEvent.seekTo p ∉ (DBFFlushRecordM s).1)) := by
  constructor
  · intro h
    unfold DBFLoadRecordM
    rw [if_pos h]
  · intro hdirty
    constructor
    · intro hseek
      unfold DBFFlushRecordM
      rw [if_pos hdirty]
      simp only []
      rw [if_pos hseek]
      split <;> rfl
    · intro hns p
      unfold DBFFlushRecordM
      rw [if_pos hdirty]
      simp only []
      rw [if_neg hns]
      split <;> simp

/-- Witness for C8: a dirty cached record 0 with the flag set (as a read
leaves it) flushes with a leading seek even though the stream already
sits at the record's offset, and a load of record 1 sets the flag. -/
theorem claim_C8_witness :
    (DBFLoadRecordM flushSample 1).2.bRequireNextWriteSeek = true ∧
    (DBFFlushRecordM flushSample).1.head? =
      some (IOEvent.seekTo (recordOffsetOf flushSample
        flushSample.nCurrentRecord)) :=
  ⟨(claim_C8 flushSample 1).1 (by decide),
   ((claim_C8 flushSample 1).2 (by decide)).1 (by decide)⟩

/-! ## Schema-mutation invariants (C3) -/

theorem offsetsFrom_take (b : Nat) (ws : List Nat) (k : Nat) :
    (offsetsFrom b ws).take k = offsetsFrom b (ws.take k) := by
  induction ws generalizing b k with
  | nil => simp [offsetsFrom]
  | cons w ws ih =>
    cases k with
    | zero => rfl
    | succ k =>
      show b :: (offsetsFrom (b + w) ws).take k =
        offsetsFrom b (w :: ws.take k)
      rw [ih]
      rfl

theorem offsetsFrom_drop (b : Nat) (ws : List Nat) (k : Nat) :
    (offsetsFrom b ws).drop k =
      offsetsFrom (b + (ws.take k).sum) (ws.drop k) := by
  induction ws generalizing b k with
  | nil => simp [offsetsFrom]
  | cons w ws ih =>
    cases k with
    | zero => simp [offsetsFrom]
    | succ k =>
      show (offsetsFrom (b + w) ws).drop k =
        offsetsFrom (b + ((w :: ws).take (k + 1)).sum) (ws.drop k)
      rw [ih, List.take_succ_cons, List.sum_cons,
        show b + (w + (ws.take k).sum) = b + w + (ws.take k).sum by omega]

theorem take_succ_getD {α : Type} {l : List α} {i : Nat} (dflt : α)
    (h : i < l.length) :
    l.take (i + 1) = l.take i ++ [l.getD i dflt] := by
  rw [List.take_succ, List.getD_eq_getElem _ _ h, List.getElem?_eq_getElem h]
  rfl

theorem set_eq_take_cons_drop {α : Type} {l : List α} {i : Nat} (a : α)
    (h : i < l.length) :
    l.set i a = l.take i ++ a :: l.drop (i + 1) := by
  rw [List.set_eq_take_append_cons_drop, if_pos h]

theorem add_wf {d : DBFInfo} (hWF : DBFWF d) (chType : Char) {nWidth : Int}
    (nDec : Nat) (h1 : ¬(65535 < d.nHeaderLength + XBASE_FLDHDR_SZ))
    (h2 : 1 ≤ nWidth)
    (h3 : ¬(65535 < d.nRecordLength + min XBASE_FLD_MAX_WIDTH nWidth.toNat)) :
    (DBFAddNativeFieldType d chType nWidth nDec).1 = (d.nFields : Int) ∧
    DBFWF (DBFAddNativeFieldType d chType nWidth nDec).2 ∧
    (DBFAddNativeFieldType d chType nWidth nDec).2.nRecords = d.nRecords := by
  have h255 : XBASE_FLD_MAX_WIDTH = 255 := rfl
  have hclamp : (if (XBASE_FLD_MAX_WIDTH : Int) < nWidth then
      XBASE_FLD_MAX_WIDTH else nWidth.toNat) =
      min XBASE_FLD_MAX_WIDTH nWidth.toNat := by
    rw [h255]
    split <;> omega
  have hw1 : 1 ≤ min XBASE_FLD_MAX_WIDTH nWidth.toNat := by
    rw [h255]; omega
  unfold DBFAddNativeFieldType
  rw [if_neg h1, if_neg (by omega)]
  simp only [hclamp]
  rw [if_neg h3]
  refine ⟨rfl, ⟨?_, ?_, ?_, ?_, ?_, ?_, ?_, ?_, ?_⟩, rfl⟩
  · simp [hWF.len_off]
  · simp [hWF.len_size]
  · simp [hWF.len_dec]
  · simp [hWF.len_type]
  · simp [hWF.len_records]
  · intro r hr
    simp only [List.mem_map] at hr
    obtain ⟨r0, hr0, rfl⟩ := hr
    simp [hWF.rec_len r0 hr0]
  · show d.panFieldOffset ++ [d.nRecordLength] =
      offsetsFrom 1 (d.panFieldSize ++ [min XBASE_FLD_MAX_WIDTH nWidth.toNat])
    rw [offsetsFrom_append, ← hWF.offsets_eq,
      show offsetsFrom (1 + d.panFieldSize.sum)
        [min XBASE_FLD_MAX_WIDTH nWidth.toNat] =
        [1 + d.panFieldSize.sum] from rfl, hWF.recLen_eq]
  · show d.nRecordLength + min XBASE_FLD_MAX_WIDTH nWidth.toNat =
      1 + (d.panFieldSize ++ [min XBASE_FLD_MAX_WIDTH nWidth.toNat]).sum
    have h := hWF.recLen_eq
    rw [List.sum_append]
    simp only [List.sum_cons, List.sum_nil]
    omega
  · intro x hx
    rw [List.mem_append] at hx
    rcases hx with hx | hx
    · exact hWF.sizes_pos x hx
    · rw [List.mem_singleton] at hx
      rw [hx]
      exact hw1

theorem delete_wf {d : DBFInfo} (hWF : DBFWF d) {iF : Int}
    (h0 : 0 ≤ iF) (h1 : iF < (d.nFields : Int)) :
    (DBFDeleteField d iF).1 = true ∧
    DBFWF (DBFDeleteField d iF).2 ∧
    (DBFDeleteField d iF).2.nRecords = d.nRecords := by
  have hi : iF.toNat < d.nFields := by omega
  have hiS : iF.toNat < d.panFieldSize.length := by rw [hWF.len_size]; exact hi
  have hiO : iF.toNat < d.panFieldOffset.length := by rw [hWF.len_off]; exact hi
  unfold DBFDeleteField
  rw [if_neg (by omega)]
  simp only []
  refine ⟨trivial, ⟨?_, ?_, ?_, ?_, ?_, ?_, ?_, ?_, ?_⟩, trivial⟩
  · show (d.panFieldOffset.take iF.toNat ++
      (d.panFieldOffset.drop (iF.toNat + 1)).map
        (fun o => o - d.panFieldSize.getD iF.toNat 0)).length = d.nFields - 1
    simp only [List.length_append, List.length_take, List.length_map,
      List.length_drop, hWF.len_off]
    omega
  · show (d.panFieldSize.take iF.toNat ++
      d.panFieldSize.drop (iF.toNat + 1)).length = d.nFields - 1
    simp only [List.length_append, List.length_take, List.length_drop,
      hWF.len_size]
    omega
  · show (d.panFieldDecimals.take iF.toNat ++
      d.panFieldDecimals.drop (iF.toNat + 1)).length = d.nFields - 1
    have := hWF.len_dec
    simp only [List.length_append, List.length_take, List.length_drop,
      hWF.len_dec]
    omega
  · show (d.pachFieldType.take iF.toNat ++
      d.pachFieldType.drop (iF.toNat + 1)).length = d.nFields - 1
    simp only [List.length_append, List.length_take, List.length_drop,
      hWF.len_type]
    omega
  · simp [hWF.len_records]
  · intro r hr
    simp only [List.mem_map] at hr
    obtain ⟨r0, hr0, rfl⟩ := hr
    have hr0len := hWF.rec_len r0 hr0
    have hos := hWF.offset_size_le hi
    show (r0.take (d.panFieldOffset.getD iF.toNat 0) ++
      r0.drop (d.panFieldOffset.getD iF.toNat 0 +
        d.panFieldSize.getD iF.toNat 0)).length =
      d.nRecordLength - d.panFieldSize.getD iF.toNat 0
    simp only [List.length_append, List.length_take, List.length_drop]
    omega
  · show d.panFieldOffset.take iF.toNat ++
      (d.panFieldOffset.drop (iF.toNat + 1)).map
        (fun o => o - d.panFieldSize.getD iF.toNat 0) =
      offsetsFrom 1 (d.panFieldSize.take iF.toNat ++
        d.panFieldSize.drop (iF.toNat + 1))
    rw [offsetsFrom_append, hWF.offsets_eq, offsetsFrom_take, offsetsFrom_drop,
      show (d.panFieldSize.take (iF.toNat + 1)).sum =
        (d.panFieldSize.take iF.toNat).sum +
          d.panFieldSize.getD iF.toNat 0 from by
        rw [List.sum_take_succ _ _ hiS, List.getD_eq_getElem _ _ hiS],
      show 1 + ((d.panFieldSize.take iF.toNat).sum +
          d.panFieldSize.getD iF.toNat 0) =
        1 + (d.panFieldSize.take iF.toNat).sum +
          d.panFieldSize.getD iF.toNat 0 from by omega,
      offsetsFrom_map_sub]
  · have hsum := List.sum_take_add_sum_drop d.panFieldSize (iF.toNat + 1)
    have hts := List.sum_take_succ d.panFieldSize iF.toNat hiS
    have hrl := hWF.recLen_eq
    have hgd : d.panFieldSize.getD iF.toNat 0 = d.panFieldSize[iF.toNat] :=
      List.getD_eq_getElem _ _ hiS
    show d.nRecordLength - d.panFieldSize.getD iF.toNat 0 =
      1 + (d.panFieldSize.take iF.toNat ++
        d.panFieldSize.drop (iF.toNat + 1)).sum
    rw [List.sum_append, hgd]
    omega
  · intro x hx
    rw [List.mem_append] at hx
    rcases hx with hx | hx
    · exact hWF.sizes_pos x (List.mem_of_mem_take hx)
    · exact hWF.sizes_pos x (List.mem_of_mem_drop hx)

theorem reorder_wf {d : DBFInfo} (hWF : DBFWF d) {panMap : List Nat}
    (hperm : panMap.Perm (List.range d.nFields)) :
    (DBFReorderFields d panMap).1 = true ∧
    DBFWF (DBFReorderFields d panMap).2 ∧
    (DBFReorderFields d panMap).2.nRecords = d.nRecords := by
  by_cases h0 : d.nFields = 0
  · unfold DBFReorderFields
    rw [if_pos h0]
    exact ⟨rfl, hWF, rfl⟩
  · have hlenMap : panMap.length = d.nFields := by
      rw [hperm.length_eq, List.length_range]
    have hmem : ∀ j ∈ panMap, j < d.nFields := by
      intro j hj
      have hr := hperm.mem_iff.mp hj
      simpa using hr
    have hsizesPerm : (panMap.map (fun j => d.panFieldSize.getD j 0)).Perm
        d.panFieldSize := by
      have hm := hperm.map (fun j => d.panFieldSize.getD j 0)
      have h2 : (List.range d.nFields).map
          (fun j => d.panFieldSize.getD j 0) = d.panFieldSize := by
        rw [← hWF.len_size]
        exact map_getD_range d.panFieldSize 0
      rw [h2] at hm
      exact hm
    have hsum : (panMap.map (fun j => d.panFieldSize.getD j 0)).sum =
        d.panFieldSize.sum := hsizesPerm.sum_eq
    have hrl := hWF.recLen_eq
    unfold DBFReorderFields
    rw [if_neg h0]
    simp only []
    refine ⟨trivial, ⟨?_, ?_, ?_, ?_, ?_, ?_, ?_, ?_, ?_⟩, trivial⟩
    · show (offsetsFrom 1 (panMap.map
        (fun j => d.panFieldSize.getD j 0))).length = d.nFields
      rw [offsetsFrom_length, List.length_map, hlenMap]
    · show (panMap.map (fun j => d.panFieldSize.getD j 0)).length = d.nFields
      rw [List.length_map, hlenMap]
    · show (panMap.map (fun j => d.panFieldDecimals.getD j 0)).length =
        d.nFields
      rw [List.length_map, hlenMap]
    · show (panMap.map (fun j => d.pachFieldType.getD j ' ')).length =
        d.nFields
      rw [List.length_map, hlenMap]
    · simp [hWF.len_records]
    · intro r hr
      simp only [List.mem_map] at hr
      obtain ⟨r0, hr0, rfl⟩ := hr
      have hr0len := hWF.rec_len r0 hr0
      show (r0.getD 0 ' ' :: (panMap.map (fun j => fieldBytes r0
        (d.panFieldOffset.getD j 0) (d.panFieldSize.getD j 0))).flatten).length
        = d.nRecordLength
      rw [List.length_cons, List.length_flatten, List.map_map]
      have hlens : panMap.map (List.length ∘ fun j => fieldBytes r0
          (d.panFieldOffset.getD j 0) (d.panFieldSize.getD j 0)) =
          panMap.map (fun j => d.panFieldSize.getD j 0) := by
        apply List.map_congr_left
        intro j hj
        exact length_fieldBytes
          (by rw [hr0len]; exact hWF.offset_size_le (hmem j hj))
      rw [hlens, hsum]
      omega
    · rfl
    · show d.nRecordLength =
        1 + (panMap.map (fun j => d.panFieldSize.getD j 0)).sum
      rw [hsum]
      exact hWF.recLen_eq
    · intro x hx
      rw [List.mem_map] at hx
      obtain ⟨j, hj, rfl⟩ := hx
      exact hWF.size_getD (hmem j hj)

theorem offsetsFrom_cons (b w : Nat) (ws : List Nat) :
    offsetsFrom b (w :: ws) = b :: offsetsFrom (b + w) ws := rfl

theorem alterRecordShrink_length {chO fill : Char} {nOff oldw w : Nat}
    {r : List Char} (hr : nOff + oldw ≤ r.length) (hw : w ≤ oldw) :
    (alterRecordShrink chO fill nOff oldw w r).length =
      r.length + w - oldw := by
  have hf : (fieldBytes r nOff oldw).length = oldw := length_fieldBytes hr
  unfold alterRecordShrink
  simp only [List.length_append, List.length_take, List.length_drop]
  split
  · rw [List.length_replicate]
    omega
  · split
    · split
      · rw [List.length_drop, hf]
        omega
      · rw [List.length_take, hf]
        omega
    · rw [hf]
      omega

theorem alterRecordGrow_length {chO fill : Char} {nOff oldw w : Nat}
    {r : List Char} (hr : nOff + oldw ≤ r.length) (hw : oldw ≤ w) :
    (alterRecordGrow chO fill nOff oldw w r).length =
      r.length + w - oldw := by
  have hf : (fieldBytes r nOff oldw).length = oldw := length_fieldBytes hr
  unfold alterRecordGrow
  simp only [List.length_append, List.length_take, List.length_drop]
  split
  · rw [List.length_replicate]
    omega
  · split
    · rw [List.length_append, List.length_replicate, hf]
      omega
    · rw [List.length_append, List.length_replicate, hf]
      omega

theorem alter_wf {d : DBFInfo} (hWF : DBFWF d) {iF : Int} (chType : Char)
    {nWidth : Int} (nDec : Nat) (h0 : 0 ≤ iF) (h1 : iF < (d.nFields : Int))
    (h2 : 1 ≤ nWidth) :
    (DBFAlterFieldDefn d iF chType nWidth nDec).1 = 1 ∧
    DBFWF (DBFAlterFieldDefn d iF chType nWidth nDec).2 ∧
    (DBFAlterFieldDefn d iF chType nWidth nDec).2.nRecords = d.nRecords := by
  have h255 : XBASE_FLD_MAX_WIDTH = 255 := rfl
  have hclamp : (if (XBASE_FLD_MAX_WIDTH : Int) < nWidth then
      XBASE_FLD_MAX_WIDTH else nWidth.toNat) =
      min XBASE_FLD_MAX_WIDTH nWidth.toNat := by
    rw [h255]
    split <;> omega
  have hw1 : 1 ≤ min XBASE_FLD_MAX_WIDTH nWidth.toNat := by
    rw [h255]; omega
  have hi : iF.toNat < d.nFields := by omega
  have hiS : iF.toNat < d.panFieldSize.length := by rw [hWF.len_size]; exact hi
  have hos := hWF.offset_size_le hi
  have hset := set_eq_take_cons_drop (min XBASE_FLD_MAX_WIDTH nWidth.toNat) hiS
  have hts : (d.panFieldSize.take (iF.toNat + 1)).sum =
      (d.panFieldSize.take iF.toNat).sum +
        d.panFieldSize.getD iF.toNat 0 := by
    rw [List.sum_take_succ _ _ hiS, List.getD_eq_getElem _ _ hiS]
  have hoff' : d.panFieldOffset.take (iF.toNat + 1) ++
      (d.panFieldOffset.drop (iF.toNat + 1)).map
        (fun o => o + min XBASE_FLD_MAX_WIDTH nWidth.toNat -
          d.panFieldSize.getD iF.toNat 0) =
      offsetsFrom 1 (d.panFieldSize.set iF.toNat
        (min XBASE_FLD_MAX_WIDTH nWidth.toNat)) := by
    rw [hWF.offsets_eq, offsetsFrom_take, offsetsFrom_drop, hts,
      show 1 + ((d.panFieldSize.take iF.toNat).sum +
          d.panFieldSize.getD iF.toNat 0) =
        1 + (d.panFieldSize.take iF.toNat).sum +
          d.panFieldSize.getD iF.toNat 0 from by omega,
      offsetsFrom_map_shift, take_succ_getD 0 hiS, offsetsFrom_append,
      show offsetsFrom (1 + (d.panFieldSize.take iF.toNat).sum)
        [d.panFieldSize.getD iF.toNat 0] =
        [1 + (d.panFieldSize.take iF.toNat).sum] from rfl,
      hset, offsetsFrom_append, offsetsFrom_cons, List.append_assoc,
      List.singleton_append]
  have hsum1 := List.sum_take_add_sum_drop d.panFieldSize (iF.toNat + 1)
  have hrlold := hWF.recLen_eq
  have hrl' : d.nRecordLength + min XBASE_FLD_MAX_WIDTH nWidth.toNat -
      d.panFieldSize.getD iF.toNat 0 =
      1 + (d.panFieldSize.set iF.toNat
        (min XBASE_FLD_MAX_WIDTH nWidth.toNat)).sum := by
    rw [hset, List.sum_append, List.sum_cons]
    omega
  have hpos' : ∀ x ∈ d.panFieldSize.set iF.toNat
      (min XBASE_FLD_MAX_WIDTH nWidth.toNat), 1 ≤ x := by
    intro x hx
    rw [hset, List.mem_append, List.mem_cons] at hx
    rcases hx with hx | hx | hx
    · exact hWF.sizes_pos x (List.mem_of_mem_take hx)
    · rw [hx]
      exact hw1
    · exact hWF.sizes_pos x (List.mem_of_mem_drop hx)
  have hlenoff : (d.panFieldOffset.take (iF.toNat + 1) ++
      (d.panFieldOffset.drop (iF.toNat + 1)).map
        (fun o => o + min XBASE_FLD_MAX_WIDTH nWidth.toNat -
          d.panFieldSize.getD iF.toNat 0)).length = d.nFields := by
    simp only [List.length_append, List.length_take, List.length_map,
      List.length_drop, hWF.len_off]
    omega
  unfold DBFAlterFieldDefn
  rw [if_neg (by omega), if_neg (by omega)]
  simp only [hclamp]
  split
  · next hcase =>
    have hwle : min XBASE_FLD_MAX_WIDTH nWidth.toNat ≤
        d.panFieldSize.getD iF.toNat 0 := by
      rcases hcase with hlt | ⟨heq, -⟩
      · omega
      · omega
    refine ⟨rfl, ⟨hlenoff, ?_, ?_, ?_, ?_, ?_, hoff', hrl', hpos'⟩, rfl⟩
    · rw [List.length_set, hWF.len_size]
    · rw [List.length_set, hWF.len_dec]
    · rw [List.length_set, hWF.len_type]
    · simp [hWF.len_records]
    · intro r hr
      simp only [List.mem_map] at hr
      obtain ⟨r0, hr0, rfl⟩ := hr
      have hr0len := hWF.rec_len r0 hr0
      rw [alterRecordShrink_length (by omega) hwle, hr0len]
  · next hc1 =>
    split
    · next hcase2 =>
      have hwge : d.panFieldSize.getD iF.toNat 0 ≤
          min XBASE_FLD_MAX_WIDTH nWidth.toNat := by omega
      refine ⟨rfl, ⟨hlenoff, ?_, ?_, ?_, ?_, ?_, hoff', hrl', hpos'⟩, rfl⟩
      · rw [List.length_set, hWF.len_size]
      · rw [List.length_set, hWF.len_dec]
      · rw [List.length_set, hWF.len_type]
      · simp [hWF.len_records]
      · intro r hr
        simp only [List.mem_map] at hr
        obtain ⟨r0, hr0, rfl⟩ := hr
        have hr0len := hWF.rec_len r0 hr0
        rw [alterRecordGrow_length (by omega) hwge, hr0len]
    · next hc2 =>
      have hnlt : ¬(min XBASE_FLD_MAX_WIDTH nWidth.toNat <
          d.panFieldSize.getD iF.toNat 0) := fun hlt => hc1 (Or.inl hlt)
      refine ⟨rfl, ⟨hlenoff, ?_, ?_, ?_, ?_, ?_, hoff', hrl', hpos'⟩, rfl⟩
      · rw [List.length_set, hWF.len_size]
      · rw [List.length_set, hWF.len_dec]
      · rw [List.length_set, hWF.len_type]
      · exact hWF.len_records
      · intro r hr
        show r.length = d.nRecordLength +
          min XBASE_FLD_MAX_WIDTH nWidth.toNat -
          d.panFieldSize.getD iF.toNat 0
        rw [hWF.rec_len r hr]
        omega

theorem schemaOK_of_wf {dOld dNew : DBFInfo} (h : DBFWF dNew)
    (hn : dNew.nRecords = dOld.nRecords) : schemaOK dOld dNew := by
  refine ⟨h, hn, ?_, ?_, h.recLen_eq⟩
  · intro h0
    rw [h.offset_getD h0]
    simp
  · intro k hk
    have hkS : k < dNew.panFieldSize.length := by
      rw [h.len_size]; omega
    rw [h.offset_getD hk, h.offset_getD (show k < dNew.nFields by omega),
      List.sum_take_succ _ _ hkS, List.getD_eq_getElem _ _ hkS]
    omega

/-- C3: every successful schema mutation — add (result not `-1`), delete
(result TRUE), reorder (given the documented caller precondition that
`panMap` permutes `0..nFields-1`), alter (result `1`) — re-establishes
the §3 schema invariants: `offset[0] = 1`,
`offset[i] = offset[i-1] + width[i-1]`,
`record_length = 1 + sum of widths`, full well-formedness, and leaves the
record count unchanged. -/
theorem claim_C3 (d : DBFInfo) (hWF : DBFWF d) (chType chTypeA : Char)
    (nWidth nWidthA : Int) (nDec nDecA : Nat) (iDel iAlt : Int)
    (panMap : List Nat) (hperm : panMap.Perm (List.range d.nFields)) :
    ((DBFAddNativeFieldType d chType nWidth nDec).1 ≠ -1 →
      schemaOK d (DBFAddNativeFieldType d chType nWidth nDec).2) ∧
    ((DBFDeleteField d iDel).1 = true →
      schemaOK d (DBFDeleteField d iDel).2) ∧
    ((DBFReorderFields d panMap).1 = true ∧
      schemaOK d (DBFReorderFields d panMap).2) ∧
    ((DBFAlterFieldDefn d iAlt chTypeA nWidthA nDecA).1 = 1 →
      schemaOK d (DBFAlterFieldDefn d iAlt chTypeA nWidthA nDecA).2) := by
  have hclamp : ∀ nW : Int, (if (XBASE_FLD_MAX_WIDTH : Int) < nW then
      XBASE_FLD_MAX_WIDTH else nW.toNat) = min XBASE_FLD_MAX_WIDTH nW.toNat := by
    intro nW
    rw [show XBASE_FLD_MAX_WIDTH = 255 from rfl]
    split <;> omega
  refine ⟨?_, ?_, ?_, ?_⟩
  · intro hs
    by_cases hh : 65535 < d.nHeaderLength + XBASE_FLDHDR_SZ
    · have hfail : DBFAddNativeFieldType d chType nWidth nDec = (-1, d) := by
        unfold DBFAddNativeFieldType
        rw [if_pos hh]
      exact absurd (by rw [hfail]) hs
    · by_cases hw : nWidth < 1
      · have hfail : DBFAddNativeFieldType d chType nWidth nDec = (-1, d) := by
          unfold DBFAddNativeFieldType
          rw [if_neg hh, if_pos hw]
        exact absurd (by rw [hfail]) hs
      · by_cases hr : 65535 < d.nRecordLength +
            min XBASE_FLD_MAX_WIDTH nWidth.toNat
        · have hfail : DBFAddNativeFieldType d chType nWidth nDec =
              (-1, d) := by
            unfold DBFAddNativeFieldType
            rw [if_neg hh, if_neg hw]
            simp only [hclamp]
            rw [if_pos hr]
          exact absurd (by rw [hfail]) hs
        · obtain ⟨-, hwf, hnr⟩ := add_wf hWF chType nDec hh (by omega) hr
          exact schemaOK_of_wf hwf hnr
  · intro hs
    by_cases hrange : iDel < 0 ∨ (d.nFields : Int) ≤ iDel
    · have hfail : DBFDeleteField d iDel = (false, d) := by
        unfold DBFDeleteField
        rw [if_pos hrange]
      rw [hfail] at hs
      simp at hs
    · obtain ⟨-, hwf, hnr⟩ := @delete_wf d hWF iDel (by omega) (by omega)
      exact schemaOK_of_wf hwf hnr
  · obtain ⟨ht, hwf, hnr⟩ := reorder_wf hWF hperm
    exact ⟨ht, schemaOK_of_wf hwf hnr⟩
  · intro hs
    by_cases hrange : iAlt < 0 ∨ (d.nFields : Int) ≤ iAlt
    · have hfail : DBFAlterFieldDefn d iAlt chTypeA nWidthA nDecA =
          (0, d) := by
        unfold DBFAlterFieldDefn
        rw [if_pos hrange]
      rw [hfail] at hs
      simp at hs
    · by_cases hw : nWidthA < 1
      · have hfail : DBFAlterFieldDefn d iAlt chTypeA nWidthA nDecA =
            (-1, d) := by
          unfold DBFAlterFieldDefn
          rw [if_neg hrange]
          simp only []
          rw [if_pos hw]
        rw [hfail] at hs
        simp at hs
      · obtain ⟨-, hwf, hnr⟩ :=
          @alter_wf d hWF iAlt chTypeA nWidthA nDecA (by omega) (by omega)
            (by omega)
        exact schemaOK_of_wf hwf hnr

/-- Witness for C3 at the two-field sample table: add a `'C'` field of
width 10, delete field 0, swap the two fields, and grow field 0 to a
`'C'` of width 5 — each successful, each re-establishing the invariants. -/
theorem claim_C3_witness :
    (List.Perm [1, 0] (List.range sampleTable.nFields) ∧
      (DBFAddNativeFieldType sampleTable 'C' 10 0).1 ≠ -1 ∧
      (DBFDeleteField sampleTable 0).1 = true ∧
      (DBFAlterFieldDefn sampleTable 0 'C' 5 0).1 = 1) ∧
    schemaOK sampleTable (DBFAddNativeFieldType sampleTable 'C' 10 0).2 ∧
    schemaOK sampleTable (DBFDeleteField sampleTable 0).2 ∧
    ((DBFReorderFields sampleTable [1, 0]).1 = true ∧
      schemaOK sampleTable (DBFReorderFields sampleTable [1, 0]).2) ∧
    schemaOK sampleTable (DBFAlterFieldDefn sampleTable 0 'C' 5 0).2 :=
  ⟨⟨by decide, by decide, by decide, by decide⟩,
   (claim_C3 sampleTable sampleTable_wf 'C' 'C' 10 5 0 0 0 0 [1, 0]
     (by decide)).1 (by decide),
   (claim_C3 sampleTable sampleTable_wf 'C' 'C' 10 5 0 0 0 0 [1, 0]
     (by decide)).2.1 (by decide),
   (claim_C3 sampleTable sampleTable_wf 'C' 'C' 10 5 0 0 0 0 [1, 0]
     (by decide)).2.2.1,
   (claim_C3 sampleTable sampleTable_wf 'C' 'C' 10 5 0 0 0 0 [1, 0]
     (by decide)).2.2.2 (by decide)⟩

end Shapelib
